import Mathlib

/-!
# Safe task registry (`Task/Src/safe_task.c`)

A shallow embedding of the watchdog registry of `safe_task.c`.

* The singly linked chain hanging off `Head->first_task` is a `List safe_task_t`;
  following `next_task` is taking the tail, `next_task == NULL` is the empty tail.
  Every node carries the address `malloc` gave it, so that pointer comparisons
  (`temp_task_ptr == delect_task_ptr`) and handles can be expressed.
* `uint32_t` values are natural numbers reduced modulo `2 ^ 32` where the source
  does arithmetic on them; `uint8_t` values modulo `2 ^ 8`.
* A dereference of a null pointer is the outcome `fault nullDeref`.
* A callback is a function pointer the registry only ever calls; a call is
  recorded as an `Event`, in the order the calls are made.  Callbacks are taken
  not to re-enter the registry.
* A name is the string a name field holds up to its NUL; `strcmp(a, b) == 0` is
  equality of the two strings.  `strcpy` into the name field stores a string that
  fits the field as it is; of a longer string the field takes as many characters
  as it has bytes, with no NUL, and then reads back as those characters followed
  by whatever the bytes behind the field spell, which the model is given as
  `field_tail`.  The bytes written past the field are taken to stay inside the
  block of the node.
* `free` of a block of the chain has no effect on the chain and is not
  represented; `free` of a pointer that was never assigned is the outcome
  `fault wildPtr`.  The `malloc` of the `Head_t` in `Safe_Init` is taken to
  succeed, the one of a node in `Safe_task_add` returns the address the caller of
  the model passes in.
-/

namespace SafeTask

/-- A machine address; `0` is the null pointer. -/
abbrev Ptr := Nat

/-- The null pointer. -/
def NULL : Ptr := 0

/-- The type `Callback` of the header: a pointer to a `void (void)` function,
identified by its address. -/
abbrev Callback := Nat

/-- Number of values of a `uint32_t`. -/
def UINT32_MOD : Nat := 4294967296

/-- Number of values of a `uint8_t`. -/
def UINT8_MOD : Nat := 256

/-- Unsigned 32-bit addition, the `+` of `Disconnection_count += RUN_cycle_MS`. -/
def uint32_add (a b : Nat) : Nat := (a + b) % UINT32_MOD

/-- Modelled from the spec: `safe_task.h`, which declares `safe_task_t`, is not among
the sources.  The fields are the ones `safe_task.c` reads and writes; the counter
and the threshold are 32-bit unsigned (the threshold is assigned from a `uint32_t`
parameter, the counter is incremented by the `uint32_t` `RUN_cycle_MS`), the two
flags are 8-bit unsigned.  `addr` is the address of the node itself and `name`
the NUL-terminated string held in the name field. `next_task` is the rest of the
list the node sits in. -/
structure safe_task_t where
  addr : Ptr
  name : String
  Disconnection_threshold : Nat
  Disconnection_count : Nat
  Disconnection_falg : Nat
  First_Disconnect : Nat
  DisconnetCallBack : Callback
  OnlineCallBack : Callback
deriving DecidableEq, Repr

/-- A call of a callback made by the registry: which node's field was called and the
function pointer found there. -/
inductive Event where
  | DisconnetCallBack (node : Ptr) (fn : Callback)
  | OnlineCallBack (node : Ptr) (fn : Callback)
deriving DecidableEq, Repr

/-- Ways a call can leave defined behaviour. -/
inductive Fault where
  | nullDeref
  | wildPtr
deriving DecidableEq, Repr

/-- What a call does: it returns, or it faults. -/
inductive Outcome (α : Type) where
  | ok (a : α)
  | fault (f : Fault)
deriving DecidableEq, Repr

/-- The globals of `safe_task.c`.  `Head` is `none` while the global pointer is
still null, and `some chain` once `Safe_Init` has allocated the `Head_t`, with
`chain` the list starting at `Head->first_task`. -/
structure State where
  RUN_cycle_MS : Nat
  Head : Option (List safe_task_t)
  init_falg : Nat
deriving DecidableEq, Repr

/-- The globals at program start: zero-initialised, except `init_falg = 1`. -/
def State.initial : State := { RUN_cycle_MS := 0, Head := none, init_falg := 1 }

/-- The constant `TASK_INTERVAL_MS`. -/
def TASK_INTERVAL_MS : Nat := 1

/-- The function `Safe_Init`. -/
def Safe_Init (s : State) (RUN_cycle_ms : Nat) : State :=
  if s.init_falg ≠ 0 then
    { init_falg := (s.init_falg + (UINT8_MOD - 1)) % UINT8_MOD
      RUN_cycle_MS := RUN_cycle_ms
      Head := some [] }
  else s

/-- What a registry call hands back: the globals after the call, the callbacks
it called, and its return value. -/
structure Ret (α : Type) where
  state : State
  calls : List Event
  value : α
deriving DecidableEq, Repr

/-- Modelled from the spec: the size in bytes of the name field of `safe_task_t`,
declared in `safe_task.h`, which is not among the sources; the comment of
`Safe_task_add` documents the parameter as `name[20]`.  A string fits the field
when its characters and the closing NUL do. -/
def NAME_FIELD_BYTES : Nat := 20

/-- What the name field reads back as after `strcpy(temp_task_ptr->name, name)` and
the stores that follow it: `name` itself when it fits the field; otherwise the
characters that filled the field, unterminated, run on into `field_tail`, the
string that the bytes behind the field spell. -/
def strcpy_field (name field_tail : String) : String :=
  if name.length < NAME_FIELD_BYTES then name
  else String.mk (name.data.take NAME_FIELD_BYTES) ++ field_tail

/-- The tail insertion of `Safe_task_add`: walk to the node whose `next_task` is
null and hang the new node there. -/
def add_tail (temp_task : safe_task_t) : List safe_task_t → List safe_task_t
  | [] => [temp_task]
  | last_task :: rest => last_task :: add_tail temp_task rest

/-- The function `Safe_task_add`; `temp_task_ptr` is what `malloc` returned and
`field_tail` what the bytes behind the name field spell once the call has made
its stores (read only when `name` does not fit the field). -/
def Safe_task_add (s : State) (temp_task_ptr : Ptr) (field_tail : String) (name : String)
    (Discon_ms : Nat) (DisconnetCallBack OnlineCallback : Callback) : Outcome (Ret Ptr) :=
  let s1 := Safe_Init s TASK_INTERVAL_MS
  match s1.Head with
  | none => .fault .nullDeref
  | some first_task =>
    if temp_task_ptr = NULL then .fault .nullDeref
    else
      let temp_task : safe_task_t :=
        { addr := temp_task_ptr
          name := strcpy_field name field_tail
          Disconnection_threshold := Discon_ms
          Disconnection_count := 0
          Disconnection_falg := 0
          First_Disconnect := 0
          DisconnetCallBack := DisconnetCallBack
          OnlineCallBack := OnlineCallback }
      match first_task with
      | [] => .ok { state := { s1 with Head := some [temp_task] }, calls := [], value := temp_task_ptr }
      | _ :: _ =>
        .ok { state := { s1 with Head := some (add_tail temp_task first_task) }, calls := [],
              value := temp_task_ptr }

/-- The body of the inner `while` of `Safe_Task` for one node: age it, and call the
disconnect callback the first time the threshold is reached. -/
def tick_node (RUN_cycle_MS : Nat) (t : safe_task_t) : safe_task_t × List Event :=
  let t1 := { t with Disconnection_count := uint32_add t.Disconnection_count RUN_cycle_MS }
  if t1.Disconnection_count ≥ t1.Disconnection_threshold then
    if t1.First_Disconnect = 0 then
      ({ t1 with First_Disconnect := (t1.First_Disconnect + 1) % UINT8_MOD
                 Disconnection_falg := 1 },
       [Event.DisconnetCallBack t1.addr t1.DisconnetCallBack])
    else (t1, [])
  else (t1, [])

/-- The inner `while (temp_task_ptr != NULL)` of `Safe_Task`. -/
def tick_loop (RUN_cycle_MS : Nat) : List safe_task_t → List safe_task_t × List Event
  | [] => ([], [])
  | t :: next_task =>
    let r := tick_node RUN_cycle_MS t
    let rs := tick_loop RUN_cycle_MS next_task
    (r.1 :: rs.1, r.2 ++ rs.2)

/-- One turn of the `while(1)` of `Safe_Task`, between `taskENTER_CRITICAL` and
`taskEXIT_CRITICAL`. -/
def Safe_Task_pass (s : State) : Outcome (Ret Unit) :=
  match s.Head with
  | none => .fault .nullDeref
  | some first_task =>
    let r := tick_loop s.RUN_cycle_MS first_task
    .ok { state := { s with Head := some r.1 }, calls := r.2, value := () }

/-- The three stores of a refresh. -/
def online_reset (t : safe_task_t) : safe_task_t :=
  { t with Disconnection_count := 0, Disconnection_falg := 0, First_Disconnect := 0 }

/-- The stores and the call of `Safe_Task_online_ptr_` through a non-null pointer:
they land in the node that lives at that address.  `none` when no node of the
chain lives there. -/
def online_at (p : Ptr) : List safe_task_t → Option (List safe_task_t × List Event)
  | [] => none
  | t :: next_task =>
    if t.addr = p then
      some (online_reset t :: next_task, [Event.OnlineCallBack t.addr t.OnlineCallBack])
    else
      match online_at p next_task with
      | none => none
      | some r => some (t :: r.1, r.2)

/-- The function `Safe_Task_online_ptr_`. -/
def Safe_Task_online_ptr_ (s : State) (temp_task_ptr : Ptr) : Outcome (Ret Nat) :=
  if temp_task_ptr = NULL then .ok { state := s, calls := [], value := 0 }
  else
    match s.Head with
    | none => .fault .wildPtr
    | some first_task =>
      match online_at temp_task_ptr first_task with
      | none => .fault .wildPtr
      | some r => .ok { state := { s with Head := some r.1 }, calls := r.2, value := 1 }

/-- The `while (temp_task_ptr != NULL)` of `Safe_Task_online_name_`. -/
def online_name_loop (name : String) : List safe_task_t → List safe_task_t × List Event × Nat
  | [] => ([], [], 0)
  | t :: next_task =>
    if t.name = name then
      (online_reset t :: next_task, [Event.OnlineCallBack t.addr t.OnlineCallBack], 1)
    else
      let r := online_name_loop name next_task
      (t :: r.1, r.2.1, r.2.2)

/-- The function `Safe_Task_online_name_`. -/
def Safe_Task_online_name_ (s : State) (name : String) : Outcome (Ret Nat) :=
  match s.Head with
  | none => .fault .nullDeref
  | some first_task =>
    let r := online_name_loop name first_task
    .ok { state := { s with Head := some r.1 }, calls := r.2.1, value := r.2.2 }

/-- The `while (temp_task_ptr->next_task != NULL)` of `Safe_task_delect_ptr_`, entered
with `temp_task_ptr` at the node `temp` whose `next_task` chain is the list argument.
Returns the chain from `temp` on and the return value. -/
def delect_ptr_loop (delect_task_ptr : Ptr) :
    safe_task_t → List safe_task_t → List safe_task_t × Nat
  | temp, [] => ([temp], 0)
  | temp, next :: rest =>
    if next.addr = delect_task_ptr then (temp :: rest, 1)
    else
      let r := delect_ptr_loop delect_task_ptr next rest
      (temp :: r.1, r.2)

/-- The function `Safe_task_delect_ptr_`. -/
def Safe_task_delect_ptr_ (s : State) (delect_task_ptr : Ptr) : Outcome (Ret Nat) :=
  match s.Head with
  | none => .fault .nullDeref
  | some [] =>
    if NULL = delect_task_ptr then
      .ok { state := { s with Head := some [] }, calls := [], value := 1 }
    else .fault .nullDeref
  | some (temp :: next_task) =>
    if temp.addr = delect_task_ptr then
      .ok { state := { s with Head := some [] }, calls := [], value := 1 }
    else
      let r := delect_ptr_loop delect_task_ptr temp next_task
      .ok { state := { s with Head := some r.1 }, calls := [], value := r.2 }

/-- The `while (temp_task_ptr->next_task != NULL)` of `Safe_Task_delect_name_`. -/
def delect_name_loop (delect_task_name : String) :
    safe_task_t → List safe_task_t → List safe_task_t × Nat
  | temp, [] => ([temp], 0)
  | temp, next :: rest =>
    if next.name = delect_task_name then (temp :: rest, 1)
    else
      let r := delect_name_loop delect_task_name next rest
      (temp :: r.1, r.2)

/-- The function `Safe_Task_delect_name_`.  In the branch of the head, after the
store of `NULL` in `Head->first_task`, `free` is handed `delect_task_ptr`, which
that branch never assigns. -/
def Safe_Task_delect_name_ (s : State) (delect_task_name : String) : Outcome (Ret Nat) :=
  match s.Head with
  | none => .fault .nullDeref
  | some [] => .fault .nullDeref
  | some (temp :: next_task) =>
    if temp.name = delect_task_name then
      .fault .wildPtr
    else
      let r := delect_name_loop delect_task_name temp next_task
      .ok { state := { s with Head := some r.1 }, calls := [], value := r.2 }

/-! ## Definitions used to state the properties -/

/-- Consecutive turns of the `while(1)` of `Safe_Task`, with nothing else running in
between; the calls made are collected in order. -/
def Safe_Task_passes : Nat → State → Outcome (Ret Unit)
  | 0, s => .ok { state := s, calls := [], value := () }
  | n + 1, s =>
    match Safe_Task_pass s with
    | .fault f => .fault f
    | .ok r =>
      match Safe_Task_passes n r.state with
      | .fault f => .fault f
      | .ok r2 => .ok { state := r2.state, calls := r.calls ++ r2.calls, value := () }

/-- One tick on one entry as the specification words it, the age a number that
is not bounded: the age becomes age + elapsed; when the new age has reached the
threshold and the entry has not fired, `fired` and `disconnected` become true;
otherwise they stay as they are. -/
def tick_entry_claimed (elapsed : Nat) (t : safe_task_t) : safe_task_t :=
  let age := t.Disconnection_count + elapsed
  if t.Disconnection_threshold ≤ age ∧ t.First_Disconnect = 0 then
    { t with Disconnection_count := age, First_Disconnect := 1, Disconnection_falg := 1 }
  else
    { t with Disconnection_count := age }

/-- The callback one tick invokes on one entry as the specification words it, the
age a number that is not bounded: `on_disconnect`, once, exactly when age + elapsed
has reached the threshold and the entry has not fired. -/
def tick_call_claimed (elapsed : Nat) (t : safe_task_t) : Option Event :=
  if t.Disconnection_threshold ≤ t.Disconnection_count + elapsed
      ∧ t.First_Disconnect = 0 then
    some (Event.DisconnetCallBack t.addr t.DisconnetCallBack)
  else none

/-- One tick on one entry with the age kept in the 32-bit counter: the age becomes
age + elapsed modulo `2 ^ 32`; when that new age has reached the threshold and the
entry has not fired, `fired` and `disconnected` become true; otherwise they stay
as they are. -/
def tick_entry_spec (elapsed : Nat) (t : safe_task_t) : safe_task_t :=
  let age := uint32_add t.Disconnection_count elapsed
  if t.Disconnection_threshold ≤ age ∧ t.First_Disconnect = 0 then
    { t with Disconnection_count := age, First_Disconnect := 1, Disconnection_falg := 1 }
  else
    { t with Disconnection_count := age }

/-- The callback one tick invokes on one entry with the age kept in the 32-bit
counter: `on_disconnect`, once, exactly when age + elapsed modulo `2 ^ 32` has
reached the threshold and the entry has not fired. -/
def tick_call_spec (elapsed : Nat) (t : safe_task_t) : Option Event :=
  if t.Disconnection_threshold ≤ uint32_add t.Disconnection_count elapsed
      ∧ t.First_Disconnect = 0 then
    some (Event.DisconnetCallBack t.addr t.DisconnetCallBack)
  else none

/-- An entry as `Safe_task_add` creates it and as a refresh leaves it. -/
def fresh (t : safe_task_t) : Prop :=
  t.Disconnection_count = 0 ∧ t.Disconnection_falg = 0 ∧ t.First_Disconnect = 0

instance (t : safe_task_t) : Decidable (fresh t) :=
  inferInstanceAs (Decidable (_ ∧ _ ∧ _))

/-- The nodes of a chain are distinct blocks of memory, none at the null address. -/
def distinct_nodes (L : List safe_task_t) : Prop :=
  (L.map (fun t => t.addr)).Nodup ∧ ∀ t ∈ L, t.addr ≠ NULL

instance (L : List safe_task_t) : Decidable (distinct_nodes L) :=
  inferInstanceAs (Decidable (_ ∧ _))

/-- The call of an entry's `on_disconnect`. -/
abbrev disconnect_call (t : safe_task_t) : Event :=
  Event.DisconnetCallBack t.addr t.DisconnetCallBack

/-- The call of an entry's `on_refresh`. -/
abbrev online_call (t : safe_task_t) : Event :=
  Event.OnlineCallBack t.addr t.OnlineCallBack

/-- The entry of scenario A as `Safe_task_add` creates it: name "motor", threshold
10, placed at address 1, callbacks at 100 and 200. -/
def motor : safe_task_t :=
  { addr := 1, name := "motor", Disconnection_threshold := 10, Disconnection_count := 0
    Disconnection_falg := 0, First_Disconnect := 0, DisconnetCallBack := 100
    OnlineCallBack := 200 }

/-- A second entry, placed at address 2, that has timed out and fired. -/
def imu : safe_task_t :=
  { addr := 2, name := "imu", Disconnection_threshold := 5, Disconnection_count := 7
    Disconnection_falg := 1, First_Disconnect := 1, DisconnetCallBack := 101
    OnlineCallBack := 201 }

/-- The first of the two entries of scenario C, both named "dup". -/
def dup_first : safe_task_t :=
  { addr := 3, name := "dup", Disconnection_threshold := 8, Disconnection_count := 9
    Disconnection_falg := 1, First_Disconnect := 1, DisconnetCallBack := 102
    OnlineCallBack := 202 }

/-- The second of the two entries of scenario C. -/
def dup_second : safe_task_t :=
  { addr := 4, name := "dup", Disconnection_threshold := 8, Disconnection_count := 9
    Disconnection_falg := 1, First_Disconnect := 1, DisconnetCallBack := 103
    OnlineCallBack := 203 }

/-- The calls made by `n` consecutive passes over a chain, pass after pass. -/
def pass_calls (c : Nat) : Nat → List safe_task_t → List Event
  | 0, _ => []
  | n + 1, L => L.filterMap (tick_call_spec c) ++ pass_calls c n (L.map (tick_entry_spec c))

/-- The entry a registration creates, in the words of the specification: the given
name, threshold and callbacks, age 0, `disconnected` and `fired` false; `p` is
the handle it is known by. -/
def new_task (p : Ptr) (name : String) (Discon_ms : Nat) (on_disconnect on_refresh : Callback) :
    safe_task_t :=
  { addr := p, name := name, Disconnection_threshold := Discon_ms, Disconnection_count := 0
    Disconnection_falg := 0, First_Disconnect := 0, DisconnetCallBack := on_disconnect
    OnlineCallBack := on_refresh }

/-- The first statement of `Safe_Task`, before its loop. -/
def Safe_Task_entry (s : State) : State := Safe_Init s TASK_INTERVAL_MS

/-- What the operations leave alone in an entry: its place in memory, its name, its
threshold and its two callbacks. -/
def frame (t : safe_task_t) : Ptr × String × Nat × Callback × Callback :=
  (t.addr, t.name, t.Disconnection_threshold, t.DisconnetCallBack, t.OnlineCallBack)

/-- The entries of the registry, none before `Safe_Init`. -/
def State.entries (s : State) : List safe_task_t := s.Head.getD []

/-- The calls a client of the module, or the scheduler, can make. -/
inductive Op where
  | init (RUN_cycle_ms : Nat)
  | add (malloc_result : Ptr) (field_tail : String) (name : String) (Discon_ms : Nat)
      (DisconnetCallBack OnlineCallback : Callback)
  | start
  | pass
  | online_ptr (temp_task_ptr : Ptr)
  | online_name (name : String)
  | delect_ptr (delect_task_ptr : Ptr)
  | delect_name (delect_task_name : String)
deriving DecidableEq, Repr

/-- The globals an outcome leaves. -/
def Outcome.after {α : Type} : Outcome (Ret α) → Outcome State
  | .ok r => .ok r.state
  | .fault f => .fault f

/-- One call on the globals. -/
def step (s : State) : Op → Outcome State
  | .init c => .ok (Safe_Init s c)
  | .add p field_tail name Discon_ms d o =>
    (Safe_task_add s p field_tail name Discon_ms d o).after
  | .start => .ok (Safe_Task_entry s)
  | .pass => (Safe_Task_pass s).after
  | .online_ptr p => (Safe_Task_online_ptr_ s p).after
  | .online_name name => (Safe_Task_online_name_ s name).after
  | .delect_ptr p => (Safe_task_delect_ptr_ s p).after
  | .delect_name name => (Safe_Task_delect_name_ s name).after

/-- A sequence of calls, one after the other, stopping at the first fault. -/
def run : State → List Op → Outcome State
  | s, [] => .ok s
  | s, op :: ops =>
    match step s op with
    | .ok s1 => run s1 ops
    | .fault f => .fault f

/-- Whether a pass made now stays within the 32-bit counter for every entry. -/
def tick_fits (s : State) : Bool :=
  s.entries.all (fun t => decide (t.Disconnection_count + s.RUN_cycle_MS < UINT32_MOD))

/-- Whether every pass of a sequence of calls stays within the 32-bit counter for
every entry. -/
def run_fits : State → List Op → Bool
  | _, [] => true
  | s, op :: ops =>
    (match op with
      | .pass => tick_fits s
      | _ => true) &&
    (match step s op with
      | .ok s1 => run_fits s1 ops
      | .fault _ => true)

/-- What holds of an entry as long as no pass has wrapped its counter: `fired` is set
only with `disconnected`, and `disconnected` only with the age at or above the
threshold. -/
def aged_if_flagged (t : safe_task_t) : Prop :=
  (t.First_Disconnect ≠ 0 → t.Disconnection_falg ≠ 0) ∧
  (t.Disconnection_falg ≠ 0 → t.Disconnection_threshold ≤ t.Disconnection_count)

/-- The entry `motor` at the end of scenario A, after three passes at interval 4:
age 12, timed out and fired. -/
def motor_fired : safe_task_t :=
  { motor with Disconnection_count := 12, Disconnection_falg := 1, First_Disconnect := 1 }

/-- The globals at the end of scenario A. -/
def scenario_A_end : State :=
  { RUN_cycle_MS := 4, Head := some [motor_fired], init_falg := 0 }

/-- An entry with the largest threshold, `2 ^ 32 - 1`, as `Safe_task_add` creates
it. -/
def slow : safe_task_t :=
  { addr := 1, name := "slow", Disconnection_threshold := 4294967295
    Disconnection_count := 0, Disconnection_falg := 0, First_Disconnect := 0
    DisconnetCallBack := 100, OnlineCallBack := 200 }

/-- The entry `slow` after a first pass with `RUN_cycle_MS = 2 ^ 31`: age `2 ^ 31`,
below the threshold. -/
def slow_aged : safe_task_t := { slow with Disconnection_count := 2147483648 }

/-- The entry `motor` after a first pass with `RUN_cycle_MS = 2 ^ 31`: age `2 ^ 31`,
timed out and fired. -/
def motor_aged : safe_task_t :=
  { motor with Disconnection_count := 2147483648, Disconnection_falg := 1
               First_Disconnect := 1 }

/-- The entry `motor` after a second pass with `RUN_cycle_MS = 2 ^ 31`: the counter has
wrapped to 0, the flags are still set. -/
def motor_wrapped : safe_task_t :=
  { motor with Disconnection_count := 0, Disconnection_falg := 1, First_Disconnect := 1 }

/-! ## The tick pass -/

theorem tick_node_eq (c : Nat) (t : safe_task_t) :
    tick_node c t = (tick_entry_spec c t, (tick_call_spec c t).toList) := by
  unfold tick_node tick_entry_spec tick_call_spec
  by_cases h1 : t.Disconnection_threshold ≤ uint32_add t.Disconnection_count c <;>
    by_cases h2 : t.First_Disconnect = 0 <;> simp [h1, h2, UINT8_MOD]

theorem tick_loop_eq (c : Nat) (L : List safe_task_t) :
    tick_loop c L = (L.map (tick_entry_spec c), L.filterMap (tick_call_spec c)) := by
  induction L with
  | nil => rfl
  | cons t L ih =>
    simp only [tick_loop, ih, tick_node_eq, List.map_cons, List.filterMap_cons]
    cases tick_call_spec c t <;> simp

theorem Safe_Task_pass_ok (c : Nat) (L : List safe_task_t) (flag : Nat) :
    Safe_Task_pass { RUN_cycle_MS := c, Head := some L, init_falg := flag }
      = .ok { state := { RUN_cycle_MS := c, Head := some (L.map (tick_entry_spec c))
                         init_falg := flag }
              calls := L.filterMap (tick_call_spec c)
              value := () } := by
  simp [Safe_Task_pass, tick_loop_eq]

/-! ## Consecutive passes -/

theorem Safe_Task_passes_ok (c flag : Nat) : ∀ (n : Nat) (L : List safe_task_t),
    Safe_Task_passes n { RUN_cycle_MS := c, Head := some L, init_falg := flag }
      = .ok { state := { RUN_cycle_MS := c, Head := some (L.map (tick_entry_spec c)^[n])
                         init_falg := flag }
              calls := pass_calls c n L
              value := () }
  | 0, L => by simp [Safe_Task_passes, pass_calls]
  | n + 1, L => by
    simp only [Safe_Task_passes, Safe_Task_pass_ok, Safe_Task_passes_ok c flag n, pass_calls,
      Function.iterate_succ, List.map_map]

theorem pass_calls_succ_last (c : Nat) : ∀ (n : Nat) (L : List safe_task_t),
    pass_calls c (n + 1) L
      = pass_calls c n L ++ (L.map (tick_entry_spec c)^[n]).filterMap (tick_call_spec c)
  | 0, L => by simp [pass_calls]
  | n + 1, L => by
    rw [pass_calls, pass_calls_succ_last c n, ← List.append_assoc, ← pass_calls]
    simp only [Function.iterate_succ, List.map_map]

theorem tick_entry_spec_addr (c : Nat) (t : safe_task_t) :
    (tick_entry_spec c t).addr = t.addr := by
  simp only [tick_entry_spec]; split <;> rfl

theorem tick_entry_spec_threshold (c : Nat) (t : safe_task_t) :
    (tick_entry_spec c t).Disconnection_threshold = t.Disconnection_threshold := by
  simp only [tick_entry_spec]; split <;> rfl

theorem tick_entry_spec_callback (c : Nat) (t : safe_task_t) :
    (tick_entry_spec c t).DisconnetCallBack = t.DisconnetCallBack := by
  simp only [tick_entry_spec]; split <;> rfl

theorem tick_entry_spec_count (c : Nat) (t : safe_task_t) :
    (tick_entry_spec c t).Disconnection_count = uint32_add t.Disconnection_count c := by
  simp only [tick_entry_spec]; split <;> rfl

theorem tick_entry_spec_first (c : Nat) (t : safe_task_t) :
    (tick_entry_spec c t).First_Disconnect = 0 ↔
      t.First_Disconnect = 0 ∧
        uint32_add t.Disconnection_count c < t.Disconnection_threshold := by
  simp only [tick_entry_spec]
  split
  · rename_i h; simp; omega
  · rename_i h; simp; omega

theorem tick_entry_spec_eq_claimed (c : Nat) (t : safe_task_t)
    (h : t.Disconnection_count + c < UINT32_MOD) :
    tick_entry_spec c t = tick_entry_claimed c t ∧ tick_call_spec c t = tick_call_claimed c t := by
  simp only [tick_entry_spec, tick_entry_claimed, tick_call_spec, tick_call_claimed, uint32_add,
    Nat.mod_eq_of_lt h, and_self]

/-- C1, as amended.  One turn of the `Safe_Task` loop, with `RUN_cycle_MS = elapsed`,
returns and turns the chain into the chain of the ticked entries, in the same
order: each entry's age becomes age + elapsed modulo `2 ^ 32`, the sum as the
32-bit counter holds it, which is the plain sum whenever that is below `2 ^ 32`;
if the new age is at least the threshold and `fired` is false, `fired` and
`disconnected` become true and `on_disconnect` is called once; otherwise the two
flags are unchanged and nothing is called.  The calls of the pass are those of
the entries in registration order.  When no entry's sum reaches `2 ^ 32`, the
pass is the one the claim words with the plain sum. -/
theorem Safe_Task_pass_per_entry (elapsed : Nat) (L : List safe_task_t) (flag : Nat) :
    Safe_Task_pass { RUN_cycle_MS := elapsed, Head := some L, init_falg := flag }
      = .ok { state := { RUN_cycle_MS := elapsed
                         Head := some (L.map (tick_entry_spec elapsed))
                         init_falg := flag }
              calls := L.filterMap (tick_call_spec elapsed)
              value := () } ∧
    (∀ t ∈ L, t.Disconnection_count + elapsed < UINT32_MOD →
      (tick_entry_spec elapsed t).Disconnection_count = t.Disconnection_count + elapsed) ∧
    ((∀ t ∈ L, t.Disconnection_count + elapsed < UINT32_MOD) →
      Safe_Task_pass { RUN_cycle_MS := elapsed, Head := some L, init_falg := flag }
        = .ok { state := { RUN_cycle_MS := elapsed
                           Head := some (L.map (tick_entry_claimed elapsed))
                           init_falg := flag }
                calls := L.filterMap (tick_call_claimed elapsed)
                value := () }) := by
  refine ⟨by simp [Safe_Task_pass, tick_loop_eq], fun t _ h => ?_, fun hall => ?_⟩
  · rw [tick_entry_spec_count, uint32_add, Nat.mod_eq_of_lt h]
  · have hmap : L.map (tick_entry_spec elapsed) = L.map (tick_entry_claimed elapsed) :=
      List.map_congr_left (fun t ht => (tick_entry_spec_eq_claimed elapsed t (hall t ht)).1)
    have hcalls : L.filterMap (tick_call_spec elapsed) = L.filterMap (tick_call_claimed elapsed) :=
      List.filterMap_congr (fun t ht => (tick_entry_spec_eq_claimed elapsed t (hall t ht)).2)
    rw [← hmap, ← hcalls]
    simp [Safe_Task_pass, tick_loop_eq]

/-- C1 as stated fails: after `Safe_Init(2147483648)`, the registration of `slow`
(threshold `2 ^ 32 - 1`) and one pass, the age of `slow` is `2 ^ 31`, below the
threshold, and it has not fired.  In the next pass age + elapsed is `2 ^ 32`, at
least the threshold, so that the claim has the age become `2 ^ 32`, the two flags
set and `on_disconnect` called; the pass leaves age 0, both flags clear, and
calls nothing. -/
theorem tick_wraps_below_threshold :
    run (Safe_Init State.initial 2147483648) [Op.add 1 "" "slow" 4294967295 100 200, Op.pass]
      = .ok { RUN_cycle_MS := 2147483648, Head := some [slow_aged], init_falg := 0 } ∧
    Safe_Task_pass { RUN_cycle_MS := 2147483648, Head := some [slow_aged], init_falg := 0 }
      = .ok { state := { RUN_cycle_MS := 2147483648, Head := some [slow], init_falg := 0 }
              calls := [], value := () } ∧
    tick_entry_claimed 2147483648 slow_aged
      = { slow with Disconnection_count := 4294967296, Disconnection_falg := 1
                    First_Disconnect := 1 } ∧
    tick_call_claimed 2147483648 slow_aged = some (disconnect_call slow) ∧
    Safe_Task_pass { RUN_cycle_MS := 2147483648, Head := some [slow_aged], init_falg := 0 }
      ≠ .ok { state := { RUN_cycle_MS := 2147483648
                         Head := some ([slow_aged].map (tick_entry_claimed 2147483648))
                         init_falg := 0 }
              calls := [slow_aged].filterMap (tick_call_claimed 2147483648)
              value := () } := by
  decide

theorem iterate_addr (c : Nat) (t : safe_task_t) (n : Nat) :
    ((tick_entry_spec c)^[n] t).addr = t.addr := by
  induction n with
  | zero => rfl
  | succ n ih => rw [Function.iterate_succ_apply', tick_entry_spec_addr, ih]

theorem iterate_threshold (c : Nat) (t : safe_task_t) (n : Nat) :
    ((tick_entry_spec c)^[n] t).Disconnection_threshold = t.Disconnection_threshold := by
  induction n with
  | zero => rfl
  | succ n ih => rw [Function.iterate_succ_apply', tick_entry_spec_threshold, ih]

theorem iterate_callback (c : Nat) (t : safe_task_t) (n : Nat) :
    ((tick_entry_spec c)^[n] t).DisconnetCallBack = t.DisconnetCallBack := by
  induction n with
  | zero => rfl
  | succ n ih => rw [Function.iterate_succ_apply', tick_entry_spec_callback, ih]

/-- The age of an entry `n` ticks after a refresh. -/
theorem iterate_count (c : Nat) (t : safe_task_t) (h : t.Disconnection_count = 0) (n : Nat) :
    ((tick_entry_spec c)^[n] t).Disconnection_count = (n * c) % UINT32_MOD := by
  induction n with
  | zero => simp [h, UINT32_MOD]
  | succ n ih =>
    rw [Function.iterate_succ_apply', tick_entry_spec_count, ih, uint32_add, Nat.succ_mul,
      Nat.mod_add_mod]

/-- An entry that has not fired after `n` ticks: none of these ticks left the age at
or above the threshold. -/
theorem iterate_first (c : Nat) (t : safe_task_t) (h : fresh t) (n : Nat) :
    ((tick_entry_spec c)^[n] t).First_Disconnect = 0 ↔
      ∀ j, 1 ≤ j → j ≤ n → (j * c) % UINT32_MOD < t.Disconnection_threshold := by
  induction n with
  | zero =>
    simp only [Function.iterate_zero, id_eq, h.2.2, true_iff]
    intro j h1 h2; omega
  | succ n ih =>
    rw [Function.iterate_succ_apply', tick_entry_spec_first, ih, iterate_count c t h.1,
      iterate_threshold, uint32_add, Nat.mod_add_mod, ← Nat.succ_mul]
    constructor
    · rintro ⟨h1, h2⟩ j hj1 hj2
      rcases Nat.lt_or_ge j (n + 1) with hlt | hge
      · exact h1 j hj1 (Nat.lt_succ_iff.mp hlt)
      · have : j = n + 1 := by omega
        subst this; exact h2
    · intro hall
      exact ⟨fun j h1 h2 => hall j h1 (by omega), hall (n + 1) (by omega) (by omega)⟩

/-! ## The calls of one entry among those of a pass -/

theorem tick_call_spec_eq_some (c : Nat) (t : safe_task_t) (e : Event)
    (h : tick_call_spec c t = some e) :
    e = disconnect_call t ∧
      t.Disconnection_threshold ≤ uint32_add t.Disconnection_count c ∧
      t.First_Disconnect = 0 := by
  simp only [tick_call_spec] at h
  split at h
  · rename_i hc
    simp only [Option.some.injEq] at h
    exact ⟨h.symm, hc⟩
  · simp at h

theorem mem_calls_iff (c : Nat) (L : List safe_task_t)
    (hL : (L.map (fun t => t.addr)).Nodup) (t : safe_task_t) (ht : t ∈ L) :
    disconnect_call t ∈ L.filterMap (tick_call_spec c) ↔
      (t.Disconnection_threshold ≤ uint32_add t.Disconnection_count c ∧
        t.First_Disconnect = 0) := by
  constructor
  · intro h
    rw [List.mem_filterMap] at h
    obtain ⟨u, hu, he⟩ := h
    obtain ⟨he1, h2⟩ := tick_call_spec_eq_some c u _ he
    have hadd : u.addr = t.addr := by
      simp only [disconnect_call, Event.DisconnetCallBack.injEq] at he1
      exact he1.1.symm
    have hut : u = t := List.inj_on_of_nodup_map hL hu ht hadd
    subst hut
    exact h2
  · intro h
    rw [List.mem_filterMap]
    exact ⟨t, ht, by simp [tick_call_spec, h]⟩

theorem calls_nodup (c : Nat) : ∀ (L : List safe_task_t),
    (L.map (fun t => t.addr)).Nodup → (L.filterMap (tick_call_spec c)).Nodup
  | [], _ => by simp
  | x :: L, h => by
    rw [List.map_cons, List.nodup_cons] at h
    rw [List.filterMap_cons]
    split
    · exact calls_nodup c L h.2
    · rename_i e he
      rw [List.nodup_cons]
      refine ⟨?_, calls_nodup c L h.2⟩
      intro hm
      rw [List.mem_filterMap] at hm
      obtain ⟨u, hu, hue⟩ := hm
      have h1 := (tick_call_spec_eq_some c x e he).1
      have h2 := (tick_call_spec_eq_some c u e hue).1
      rw [h1] at h2
      simp only [disconnect_call, Event.DisconnetCallBack.injEq] at h2
      exact h.1 (by rw [h2.1]; exact List.mem_map_of_mem (fun t => t.addr) hu)

theorem count_calls (c : Nat) (L : List safe_task_t)
    (hL : (L.map (fun t => t.addr)).Nodup) (t : safe_task_t) (ht : t ∈ L) :
    (L.filterMap (tick_call_spec c)).count (disconnect_call t) =
      if t.Disconnection_threshold ≤ uint32_add t.Disconnection_count c ∧
        t.First_Disconnect = 0 then 1 else 0 := by
  rw [List.count_eq_of_nodup (calls_nodup c L hL)]
  simp only [mem_calls_iff c L hL t ht]

theorem iterate_chain_nodup (c : Nat) (L : List safe_task_t) (n : Nat)
    (hL : (L.map (fun t => t.addr)).Nodup) :
    ((L.map (tick_entry_spec c)^[n]).map (fun t => t.addr)).Nodup := by
  have : (L.map (tick_entry_spec c)^[n]).map (fun t => t.addr) = L.map (fun t => t.addr) := by
    rw [List.map_map]
    apply List.map_congr_left
    intro t _
    exact iterate_addr c t n
  rw [this]; exact hL

theorem disconnect_call_iterate (c : Nat) (t : safe_task_t) (n : Nat) :
    disconnect_call ((tick_entry_spec c)^[n] t) = disconnect_call t := by
  simp only [disconnect_call, iterate_addr, iterate_callback]

/-- Whether pass number `n + 1` calls `on_disconnect` of the entry `t` of the chain
the passes started from. -/
theorem mem_pass_calls_iff (c : Nat) (L : List safe_task_t)
    (hL : (L.map (fun t => t.addr)).Nodup) (t : safe_task_t) (ht : t ∈ L) (n : Nat) :
    disconnect_call t ∈ (L.map (tick_entry_spec c)^[n]).filterMap (tick_call_spec c) ↔
      (t.Disconnection_threshold
          ≤ uint32_add ((tick_entry_spec c)^[n] t).Disconnection_count c ∧
        ((tick_entry_spec c)^[n] t).First_Disconnect = 0) := by
  have h := mem_calls_iff c _ (iterate_chain_nodup c L n hL) ((tick_entry_spec c)^[n] t)
    (List.mem_map_of_mem _ ht)
  rw [disconnect_call_iterate, iterate_threshold] at h
  exact h

theorem count_pass_calls_succ (c : Nat) (L : List safe_task_t)
    (hL : (L.map (fun t => t.addr)).Nodup) (t : safe_task_t) (ht : t ∈ L) (n : Nat) :
    (pass_calls c (n + 1) L).count (disconnect_call t) =
      (pass_calls c n L).count (disconnect_call t) +
        if t.Disconnection_threshold
              ≤ uint32_add ((tick_entry_spec c)^[n] t).Disconnection_count c ∧
            ((tick_entry_spec c)^[n] t).First_Disconnect = 0 then 1 else 0 := by
  have h := count_calls c _ (iterate_chain_nodup c L n hL) ((tick_entry_spec c)^[n] t)
    (List.mem_map_of_mem _ ht)
  rw [disconnect_call_iterate, iterate_threshold] at h
  rw [pass_calls_succ_last, List.count_append, h]

/-- While an entry that had not fired is only ticked, its `on_disconnect` has been
called once if the entry has fired by now and not at all if it has not. -/
theorem count_pass_calls_of_first (c : Nat) (L : List safe_task_t)
    (hL : (L.map (fun t => t.addr)).Nodup) (t : safe_task_t) (ht : t ∈ L)
    (h0 : t.First_Disconnect = 0) (n : Nat) :
    (pass_calls c n L).count (disconnect_call t) =
      if ((tick_entry_spec c)^[n] t).First_Disconnect = 0 then 0 else 1 := by
  induction n with
  | zero => simp [pass_calls, h0]
  | succ n ih =>
    rw [count_pass_calls_succ c L hL t ht, ih, Function.iterate_succ_apply']
    have hf := tick_entry_spec_first c ((tick_entry_spec c)^[n] t)
    rw [iterate_threshold] at hf
    by_cases h1 : ((tick_entry_spec c)^[n] t).First_Disconnect = 0
    · by_cases h2 : t.Disconnection_threshold
          ≤ uint32_add ((tick_entry_spec c)^[n] t).Disconnection_count c
      · have : ¬ (tick_entry_spec c ((tick_entry_spec c)^[n] t)).First_Disconnect = 0 := by
          rw [hf]; omega
        simp [h1, h2, this]
      · have : (tick_entry_spec c ((tick_entry_spec c)^[n] t)).First_Disconnect = 0 := by
          rw [hf]; omega
        simp [h1, h2, this]
    · have : ¬ (tick_entry_spec c ((tick_entry_spec c)^[n] t)).First_Disconnect = 0 := by
        rw [hf]; tauto
      simp [h1, this]

/-- An entry that has fired is not called again by ticks alone. -/
theorem count_pass_calls_of_fired (c : Nat) (L : List safe_task_t)
    (hL : (L.map (fun t => t.addr)).Nodup) (t : safe_task_t) (ht : t ∈ L)
    (h0 : t.First_Disconnect ≠ 0) (n : Nat) :
    ((tick_entry_spec c)^[n] t).First_Disconnect ≠ 0 ∧
      (pass_calls c n L).count (disconnect_call t) = 0 := by
  induction n with
  | zero => simp [pass_calls, h0]
  | succ n ih =>
    rw [count_pass_calls_succ c L hL t ht, ih.2, Function.iterate_succ_apply']
    have hf := tick_entry_spec_first c ((tick_entry_spec c)^[n] t)
    refine ⟨fun h => ih.1 (hf.mp h).1, ?_⟩
    simp [ih.1]

/-- C2. An entry `t` of the chain that is fresh (just registered or just refreshed)
and is then only ticked, with tick interval `c`: pass number `k` calls its
`on_disconnect` exactly when `k` is the least positive integer with
`k * c ≥ threshold`, provided `k * c` fits the 32-bit counter; the age after that
pass is `k * c`.  The passes return.  (Nothing is assumed of `c`; the statement
covers `c ≥ 1`.) -/
theorem disconnect_at_least_tick (c flag : Nat) (L : List safe_task_t) (t : safe_task_t)
    (k : Nat) (hL : distinct_nodes L) (ht : t ∈ L) (hf : fresh t) (hk : 1 ≤ k)
    (hr : k * c < UINT32_MOD) :
    ∃ r r',
      Safe_Task_passes (k - 1) { RUN_cycle_MS := c, Head := some L, init_falg := flag } = .ok r ∧
      Safe_Task_pass r.state = .ok r' ∧
      (disconnect_call t ∈ r'.calls ↔
        (t.Disconnection_threshold ≤ k * c ∧
          ∀ j, 1 ≤ j → j < k → j * c < t.Disconnection_threshold)) ∧
      ∃ u ∈ r'.state.Head.getD [], u.addr = t.addr ∧ u.Disconnection_count = k * c := by
  obtain ⟨n, rfl⟩ : ∃ n, k = n + 1 := ⟨k - 1, by omega⟩
  have hsmall : ∀ j, j ≤ n + 1 → (j * c) % UINT32_MOD = j * c := fun j hj =>
    Nat.mod_eq_of_lt (Nat.lt_of_le_of_lt (Nat.mul_le_mul_right c hj) hr)
  refine ⟨_, _, Safe_Task_passes_ok c flag n L, Safe_Task_pass_ok c _ flag, ?_, ?_⟩
  · show disconnect_call t ∈ (L.map (tick_entry_spec c)^[n]).filterMap (tick_call_spec c) ↔ _
    rw [mem_pass_calls_iff c L hL.1 t ht n, iterate_count c t hf.1, iterate_first c t hf,
      uint32_add, Nat.mod_add_mod, ← Nat.succ_mul, hsmall (n + 1) (Nat.le_refl _)]
    constructor
    · rintro ⟨h1, h2⟩
      refine ⟨h1, fun j hj1 hj2 => ?_⟩
      have := h2 j hj1 (by omega)
      rwa [hsmall j (by omega)] at this
    · rintro ⟨h1, h2⟩
      refine ⟨h1, fun j hj1 hj2 => ?_⟩
      rw [hsmall j (by omega)]
      exact h2 j hj1 (by omega)
  · refine ⟨(tick_entry_spec c)^[n + 1] t, ?_, iterate_addr c t (n + 1), ?_⟩
    · show _ ∈ (L.map (tick_entry_spec c)^[n]).map (tick_entry_spec c)
      rw [List.map_map, Function.iterate_succ_apply']
      exact List.mem_map_of_mem ((tick_entry_spec c) ∘ (tick_entry_spec c)^[n]) ht
    · rw [iterate_count c t hf.1, hsmall (n + 1) (Nat.le_refl _)]

/-- Scenario A: threshold 10 and interval 4; the third pass (age 12) calls
`on_disconnect` exactly when 3 is the least `k` with `4 k ≥ 10`. -/
theorem disconnect_at_least_tick_witness :
    ∃ r r',
      Safe_Task_passes (3 - 1) { RUN_cycle_MS := 4, Head := some [motor], init_falg := 0 }
        = .ok r ∧
      Safe_Task_pass r.state = .ok r' ∧
      (disconnect_call motor ∈ r'.calls ↔
        (motor.Disconnection_threshold ≤ 3 * 4 ∧
          ∀ j, 1 ≤ j → j < 3 → j * 4 < motor.Disconnection_threshold)) ∧
      ∃ u ∈ r'.state.Head.getD [], u.addr = motor.addr ∧ u.Disconnection_count = 3 * 4 :=
  disconnect_at_least_tick 4 0 [motor] motor 3 (by decide) (List.mem_singleton_self _)
    (by decide) (by decide) (by decide)

/-- C3. For an entry `t` of the chain and `n` consecutive passes with nothing in
between: if `t` is fresh (just registered or just refreshed), its `on_disconnect`
is called exactly once in all when some pass `k ≤ n` leaves its age, `k * c` in the
32-bit counter, at or above the threshold, and never otherwise, however large
`n` is; if `t` has already fired, no number of passes calls it again, so that a
further call needs a refresh, which makes the entry fresh again.  The passes
return. -/
theorem disconnect_once_per_episode (c flag : Nat) (L : List safe_task_t) (t : safe_task_t)
    (n : Nat) (hL : distinct_nodes L) (ht : t ∈ L) :
    ∃ r,
      Safe_Task_passes n { RUN_cycle_MS := c, Head := some L, init_falg := flag } = .ok r ∧
      (fresh t →
        ((∃ k, 1 ≤ k ∧ k ≤ n ∧ t.Disconnection_threshold ≤ (k * c) % UINT32_MOD) →
          r.calls.count (disconnect_call t) = 1) ∧
        ((¬ ∃ k, 1 ≤ k ∧ k ≤ n ∧ t.Disconnection_threshold ≤ (k * c) % UINT32_MOD) →
          r.calls.count (disconnect_call t) = 0) ∧
        ∃ u ∈ r.state.Head.getD [],
          u.addr = t.addr ∧ u.Disconnection_count = (n * c) % UINT32_MOD) ∧
      (t.First_Disconnect ≠ 0 → r.calls.count (disconnect_call t) = 0) := by
  refine ⟨_, Safe_Task_passes_ok c flag n L, fun hf => ⟨?_, ?_, ?_⟩, fun h0 => ?_⟩
  · rintro ⟨k, hk1, hk2, hk3⟩
    show (pass_calls c n L).count (disconnect_call t) = 1
    rw [count_pass_calls_of_first c L hL.1 t ht hf.2.2 n, if_neg]
    intro h
    have := (iterate_first c t hf n).mp h k hk1 hk2
    omega
  · intro hno
    show (pass_calls c n L).count (disconnect_call t) = 0
    rw [count_pass_calls_of_first c L hL.1 t ht hf.2.2 n, if_pos]
    rw [iterate_first c t hf n]
    intro j hj1 hj2
    by_contra hlt
    exact hno ⟨j, hj1, hj2, by omega⟩
  · exact ⟨(tick_entry_spec c)^[n] t, List.mem_map_of_mem _ ht, iterate_addr c t n,
      iterate_count c t hf.1 n⟩
  · exact (count_pass_calls_of_fired c L hL.1 t ht h0 n).2

/-- Scenario A continued for five passes at interval 4. -/
theorem disconnect_once_per_episode_witness :
    ∃ r,
      Safe_Task_passes 5 { RUN_cycle_MS := 4, Head := some [motor], init_falg := 0 } = .ok r ∧
      (fresh motor →
        ((∃ k, 1 ≤ k ∧ k ≤ 5 ∧ motor.Disconnection_threshold ≤ (k * 4) % UINT32_MOD) →
          r.calls.count (disconnect_call motor) = 1) ∧
        ((¬ ∃ k, 1 ≤ k ∧ k ≤ 5 ∧ motor.Disconnection_threshold ≤ (k * 4) % UINT32_MOD) →
          r.calls.count (disconnect_call motor) = 0) ∧
        ∃ u ∈ r.state.Head.getD [],
          u.addr = motor.addr ∧ u.Disconnection_count = (5 * 4) % UINT32_MOD) ∧
      (motor.First_Disconnect ≠ 0 → r.calls.count (disconnect_call motor) = 0) :=
  disconnect_once_per_episode 4 0 [motor] motor 5 (by decide) (List.mem_singleton_self _)

/-! ## Refresh -/

theorem online_at_found (t : safe_task_t) : ∀ (L : List safe_task_t),
    (L.map (fun u => u.addr)).Nodup → t ∈ L →
    ∃ pre post, L = pre ++ t :: post ∧
      online_at t.addr L = some (pre ++ online_reset t :: post, [online_call t])
  | [], _, ht => by cases ht
  | x :: L, hL, ht => by
    by_cases hx : x.addr = t.addr
    · have hxt : x = t := List.inj_on_of_nodup_map hL (List.mem_cons_self _ _) ht hx
      subst hxt
      exact ⟨[], L, rfl, by simp [online_at]⟩
    · have ht' : t ∈ L := by
        rcases List.mem_cons.mp ht with rfl | h
        · exact absurd rfl hx
        · exact h
      rw [List.map_cons, List.nodup_cons] at hL
      obtain ⟨pre, post, hdec, hat⟩ := online_at_found t L hL.2 ht'
      exact ⟨x :: pre, post, by rw [hdec]; rfl, by simp [online_at, hx, hat]⟩

theorem online_name_loop_found (name : String) : ∀ (L : List safe_task_t),
    (∃ t ∈ L, t.name = name) →
    ∃ pre t post, L = pre ++ t :: post ∧ (∀ u ∈ pre, u.name ≠ name) ∧ t.name = name ∧
      online_name_loop name L = (pre ++ online_reset t :: post, [online_call t], 1)
  | [], h => by simp at h
  | x :: L, h => by
    by_cases hx : x.name = name
    · exact ⟨[], x, L, rfl, by simp, hx, by simp [online_name_loop, hx]⟩
    · have h' : ∃ t ∈ L, t.name = name := by
        obtain ⟨t, ht, hn⟩ := h
        rcases List.mem_cons.mp ht with rfl | ht'
        · exact absurd hn hx
        · exact ⟨t, ht', hn⟩
      obtain ⟨pre, t, post, hdec, hpre, ht, hloop⟩ := online_name_loop_found name L h'
      refine ⟨x :: pre, t, post, by rw [hdec]; rfl, ?_, ht, ?_⟩
      · intro u hu
        rcases List.mem_cons.mp hu with rfl | hu'
        · exact hx
        · exact hpre u hu'
      · simp [online_name_loop, hx, hloop]

theorem online_name_loop_not_found (name : String) : ∀ (L : List safe_task_t),
    (∀ t ∈ L, t.name ≠ name) → online_name_loop name L = (L, [], 0)
  | [], _ => rfl
  | x :: L, h => by
    have hx : x.name ≠ name := h x (List.mem_cons_self _ _)
    have hrest := online_name_loop_not_found name L
      (fun t ht => h t (List.mem_cons_of_mem _ ht))
    simp [online_name_loop, hx, hrest]

/-- C4. `Safe_Task_online_ptr_` called with the address of an entry `t` of the chain,
whatever `t` holds: it returns 1, has called `on_refresh` of `t` once and nothing
else, and the chain is the old one with `t` replaced by `t` with age 0,
`disconnected` 0 and `fired` 0, all other entries as they were.  Called with the
null pointer, in any state, it returns 0, calls nothing and changes nothing. -/
theorem online_ptr_refreshes (c flag : Nat) (L : List safe_task_t) (t : safe_task_t)
    (hL : distinct_nodes L) (ht : t ∈ L) :
    (∃ pre post, L = pre ++ t :: post ∧
      Safe_Task_online_ptr_ { RUN_cycle_MS := c, Head := some L, init_falg := flag } t.addr
        = .ok { state :=
                  { RUN_cycle_MS := c
                    Head := some (pre ++
                      { t with Disconnection_count := 0, Disconnection_falg := 0
                               First_Disconnect := 0 } :: post)
                    init_falg := flag }
                calls := [online_call t]
                value := 1 }) ∧
    ∀ s : State, Safe_Task_online_ptr_ s NULL = .ok { state := s, calls := [], value := 0 } := by
  constructor
  · obtain ⟨pre, post, hdec, hat⟩ := online_at_found t L hL.1 ht
    refine ⟨pre, post, hdec, ?_⟩
    have hnull : t.addr ≠ NULL := hL.2 t ht
    simp only [Safe_Task_online_ptr_, hnull, if_false, hat]
    rfl
  · intro s
    simp [Safe_Task_online_ptr_]

/-- A refresh by handle of the timed-out entry behind `motor`. -/
theorem online_ptr_refreshes_witness :
    (∃ pre post, [motor, imu] = pre ++ imu :: post ∧
      Safe_Task_online_ptr_ { RUN_cycle_MS := 1, Head := some [motor, imu], init_falg := 0 }
          imu.addr
        = .ok { state :=
                  { RUN_cycle_MS := 1
                    Head := some (pre ++
                      { imu with Disconnection_count := 0, Disconnection_falg := 0
                                 First_Disconnect := 0 } :: post)
                    init_falg := 0 }
                calls := [online_call imu]
                value := 1 }) ∧
    ∀ s : State, Safe_Task_online_ptr_ s NULL = .ok { state := s, calls := [], value := 0 } :=
  online_ptr_refreshes 1 0 [motor, imu] imu (by decide) (by simp)

/-- C5. `Safe_Task_online_name_` called with a name that some entry of the chain
carries: it returns 1, has called once the `on_refresh` of the first entry, in
registration order, whose name is that name, and the chain is the old one with
that entry's age, `disconnected` and `fired` set to 0; the entries before it
(none of which has the name) and after it (whatever their names) are as they
were. -/
theorem online_name_refreshes_first (c flag : Nat) (L : List safe_task_t) (name : String)
    (h : ∃ t ∈ L, t.name = name) :
    ∃ pre t post, L = pre ++ t :: post ∧ (∀ u ∈ pre, u.name ≠ name) ∧ t.name = name ∧
      Safe_Task_online_name_ { RUN_cycle_MS := c, Head := some L, init_falg := flag } name
        = .ok { state :=
                  { RUN_cycle_MS := c
                    Head := some (pre ++
                      { t with Disconnection_count := 0, Disconnection_falg := 0
                               First_Disconnect := 0 } :: post)
                    init_falg := flag }
                calls := [online_call t]
                value := 1 } := by
  obtain ⟨pre, t, post, hdec, hpre, ht, hloop⟩ := online_name_loop_found name L h
  refine ⟨pre, t, post, hdec, hpre, ht, ?_⟩
  simp only [Safe_Task_online_name_, hloop]
  rfl

/-- Scenario C: two entries named "dup" after `motor`. -/
theorem online_name_refreshes_first_witness :
    ∃ pre t post, [motor, dup_first, dup_second] = pre ++ t :: post ∧
      (∀ u ∈ pre, u.name ≠ "dup") ∧ t.name = "dup" ∧
      Safe_Task_online_name_
          { RUN_cycle_MS := 1, Head := some [motor, dup_first, dup_second], init_falg := 0 }
          "dup"
        = .ok { state :=
                  { RUN_cycle_MS := 1
                    Head := some (pre ++
                      { t with Disconnection_count := 0, Disconnection_falg := 0
                               First_Disconnect := 0 } :: post)
                    init_falg := 0 }
                calls := [online_call t]
                value := 1 } :=
  online_name_refreshes_first 1 0 [motor, dup_first, dup_second] "dup"
    ⟨dup_first, by simp, rfl⟩

/-- C10. `Safe_Task_online_name_` called with a name that no entry of the chain
carries, the empty chain included: it returns 0, calls nothing and leaves the
globals, every entry with them, as they were.  So on any chain the call returns,
and its value is 1 exactly when some entry has that name. -/
theorem online_name_not_found (c flag : Nat) (L : List safe_task_t) (name : String) :
    ((∀ t ∈ L, t.name ≠ name) →
      Safe_Task_online_name_ { RUN_cycle_MS := c, Head := some L, init_falg := flag } name
        = .ok { state := { RUN_cycle_MS := c, Head := some L, init_falg := flag }
                calls := [], value := 0 }) ∧
    ∃ r, Safe_Task_online_name_ { RUN_cycle_MS := c, Head := some L, init_falg := flag } name
        = .ok r ∧ (r.value = 1 ↔ ∃ t ∈ L, t.name = name) := by
  have hno : (∀ t ∈ L, t.name ≠ name) →
      Safe_Task_online_name_ { RUN_cycle_MS := c, Head := some L, init_falg := flag } name
        = .ok { state := { RUN_cycle_MS := c, Head := some L, init_falg := flag }
                calls := [], value := 0 } := by
    intro h
    simp only [Safe_Task_online_name_, online_name_loop_not_found name L h]
  refine ⟨hno, ?_⟩
  by_cases h : ∃ t ∈ L, t.name = name
  · obtain ⟨pre, t, post, _, _, _, hloop⟩ := online_name_loop_found name L h
    refine ⟨_, rfl, ?_⟩
    simp only [hloop, h]
  · have h' : ∀ t ∈ L, t.name ≠ name := fun t ht hn => h ⟨t, ht, hn⟩
    refine ⟨_, hno h', ?_⟩
    simp [h]

/-- A name nobody carries, on the chain of scenario C. -/
theorem online_name_not_found_witness :
    (∀ t ∈ [motor, dup_first, dup_second], t.name ≠ "gimbal") ∧
      Safe_Task_online_name_
          { RUN_cycle_MS := 1, Head := some [motor, dup_first, dup_second], init_falg := 0 }
          "gimbal"
        = .ok { state := { RUN_cycle_MS := 1, Head := some [motor, dup_first, dup_second]
                           init_falg := 0 }
                calls := [], value := 0 } :=
  ⟨by decide, (online_name_not_found 1 0 [motor, dup_first, dup_second] "gimbal").1 (by decide)⟩

/-! ## Removal -/

theorem delect_ptr_loop_not_found (p : Ptr) : ∀ (temp : safe_task_t) (rest : List safe_task_t),
    (∀ u ∈ rest, u.addr ≠ p) → delect_ptr_loop p temp rest = (temp :: rest, 0)
  | _, [], _ => rfl
  | temp, x :: rest, h => by
    have hx : x.addr ≠ p := h x (List.mem_cons_self _ _)
    have hrest := delect_ptr_loop_not_found p x rest (fun u hu => h u (List.mem_cons_of_mem _ hu))
    simp [delect_ptr_loop, hx, hrest]

theorem delect_name_loop_not_found (name : String) :
    ∀ (temp : safe_task_t) (rest : List safe_task_t),
    (∀ u ∈ rest, u.name ≠ name) → delect_name_loop name temp rest = (temp :: rest, 0)
  | _, [], _ => rfl
  | temp, x :: rest, h => by
    have hx : x.name ≠ name := h x (List.mem_cons_self _ _)
    have hrest := delect_name_loop_not_found name x rest
      (fun u hu => h u (List.mem_cons_of_mem _ hu))
    simp [delect_name_loop, hx, hrest]

theorem delect_name_loop_found (name : String) (u : safe_task_t) (post : List safe_task_t)
    (hu : u.name = name) : ∀ (temp : safe_task_t) (pre : List safe_task_t),
    (∀ x ∈ pre, x.name ≠ name) →
    delect_name_loop name temp (pre ++ u :: post) = (temp :: (pre ++ post), 1)
  | temp, [], _ => by simp [delect_name_loop, hu]
  | temp, x :: pre, h => by
    have hx : x.name ≠ name := h x (List.mem_cons_self _ _)
    have hrest := delect_name_loop_found name u post hu x pre
      (fun y hy => h y (List.mem_cons_of_mem _ hy))
    simp [delect_name_loop, hx, hrest]

/-- C6, at the chain `motor`, `imu` and the handle of `motor`, the head:
`Safe_task_delect_ptr_` returns 1 and leaves `Head->first_task` null, so that `imu`
is gone with `motor`; the chain is not the one with only `motor` erased. -/
theorem delect_ptr_head_loses_rest :
    Safe_task_delect_ptr_ { RUN_cycle_MS := 1, Head := some [motor, imu], init_falg := 0 }
        motor.addr
      = .ok { state := { RUN_cycle_MS := 1, Head := some [], init_falg := 0 }
              calls := [], value := 1 } ∧
    Safe_task_delect_ptr_ { RUN_cycle_MS := 1, Head := some [motor, imu], init_falg := 0 }
        motor.addr
      ≠ .ok { state := { RUN_cycle_MS := 1, Head := some [imu], init_falg := 0 }
              calls := [], value := 1 } := by
  decide

/-- C7, at the chain `motor`, `imu` and the name of `motor`, the head:
`Safe_Task_delect_name_` takes the branch of the head, which stores `NULL` in
`Head->first_task`, so that `imu` is gone with `motor`, and then hands `free` a
pointer it never assigned; the call does not leave the chain with only `motor`
erased. -/
theorem delect_name_head_loses_rest :
    Safe_Task_delect_name_ { RUN_cycle_MS := 1, Head := some [motor, imu], init_falg := 0 }
        "motor"
      = .fault .wildPtr ∧
    Safe_Task_delect_name_ { RUN_cycle_MS := 1, Head := some [motor, imu], init_falg := 0 }
        "motor"
      ≠ .ok { state := { RUN_cycle_MS := 1, Head := some [imu], init_falg := 0 }
              calls := [], value := 1 } := by
  decide

/-- C8, on the empty chain: `Safe_Task_delect_name_` reads `temp_task_ptr->name`
through the null `Head->first_task` for every name, whether the chain is empty
since `Safe_Init` or, as in scenario D, since the only entry was removed by its
handle. -/
theorem delect_name_empty_faults :
    (∀ (c flag : Nat) (name : String),
      Safe_Task_delect_name_ { RUN_cycle_MS := c, Head := some [], init_falg := flag } name
        = .fault .nullDeref) ∧
    (∀ name : String,
      Safe_Task_delect_name_ (Safe_Init State.initial 1) name = .fault .nullDeref) ∧
    ∃ r1 r2,
      Safe_task_add State.initial 1 "" "motor" 10 100 200 = .ok r1 ∧
      Safe_task_delect_ptr_ r1.state r1.value = .ok r2 ∧
      r2.value = 1 ∧ r2.state.Head = some [] ∧
      ∀ name : String, Safe_Task_delect_name_ r2.state name = .fault .nullDeref := by
  refine ⟨fun c flag name => rfl, fun name => rfl, _, _, rfl, rfl, rfl, rfl, fun name => rfl⟩

/-- C9, on the empty chain: `Safe_task_delect_ptr_` called with a handle that is not
null reads `temp_task_ptr->next_task` through the null `Head->first_task`, and
called with the null handle returns 1. -/
theorem delect_ptr_empty_faults :
    (∀ (c flag : Nat) (p : Ptr),
      Safe_task_delect_ptr_ { RUN_cycle_MS := c, Head := some [], init_falg := flag } (p + 1)
        = .fault .nullDeref) ∧
    (∀ (c flag : Nat),
      Safe_task_delect_ptr_ { RUN_cycle_MS := c, Head := some [], init_falg := flag } NULL
        = .ok { state := { RUN_cycle_MS := c, Head := some [], init_falg := flag }
                calls := [], value := 1 }) := by
  constructor
  · intro c flag p
    simp [Safe_task_delect_ptr_, NULL]
  · intro c flag
    simp [Safe_task_delect_ptr_]

/-! ## Registration -/

theorem add_tail_eq (e : safe_task_t) : ∀ (L : List safe_task_t), add_tail e L = L ++ [e]
  | [] => rfl
  | x :: L => by simp [add_tail, add_tail_eq e L]

theorem Safe_Init_done (c : Nat) (h : Option (List safe_task_t)) (c1 : Nat) :
    Safe_Init { RUN_cycle_MS := c, Head := h, init_falg := 0 } c1
      = { RUN_cycle_MS := c, Head := h, init_falg := 0 } := by
  simp [Safe_Init]

theorem strcpy_field_fits (name field_tail : String) (h : name.length < NAME_FIELD_BYTES) :
    strcpy_field name field_tail = name := by
  simp [strcpy_field, h]

theorem Safe_task_add_ok (c : Nat) (L : List safe_task_t) (p : Ptr) (field_tail name : String)
    (Discon_ms : Nat) (d o : Callback) (hp : p ≠ NULL) :
    Safe_task_add { RUN_cycle_MS := c, Head := some L, init_falg := 0 } p field_tail name
        Discon_ms d o
      = .ok { state := { RUN_cycle_MS := c
                         Head := some (L ++
                           [new_task p (strcpy_field name field_tail) Discon_ms d o])
                         init_falg := 0 }
              calls := [], value := p } := by
  simp only [Safe_task_add, Safe_Init_done, hp, if_false]
  cases L with
  | nil => rfl
  | cons x L => simp [add_tail_eq, new_task]

theorem Safe_task_add_null (s : State) (field_tail name : String) (Discon_ms : Nat)
    (d o : Callback) :
    Safe_task_add s NULL field_tail name Discon_ms d o = .fault .nullDeref := by
  simp only [Safe_task_add]
  split <;> simp

/-- C11, as amended.  `Safe_task_add` on an initialised registry with entries `L`,
when `malloc` has returned a block `p` and the name fits the name field (fewer
than 20 characters): it returns `p`, calls nothing, and the registry is
`L ++ [e]`, where `e` is the entry at `p` with the given name, threshold and
callbacks, age 0, `disconnected` 0 and `fired` 0.  The entries of `L` are as they
were and in their order, and `L` is any chain: one that already holds the name
is treated like any other. -/
theorem Safe_task_add_appends (c : Nat) (L : List safe_task_t) (p : Ptr)
    (field_tail name : String) (Discon_ms : Nat) (on_disconnect on_refresh : Callback)
    (hp : p ≠ NULL) (hname : name.length < NAME_FIELD_BYTES) :
    Safe_task_add { RUN_cycle_MS := c, Head := some L, init_falg := 0 } p field_tail name
        Discon_ms on_disconnect on_refresh
      = .ok { state := { RUN_cycle_MS := c
                         Head := some (L ++ [new_task p name Discon_ms on_disconnect on_refresh])
                         init_falg := 0 }
              calls := [], value := p } ∧
    (new_task p name Discon_ms on_disconnect on_refresh).addr = p := by
  have h := Safe_task_add_ok c L p field_tail name Discon_ms on_disconnect on_refresh hp
  rw [strcpy_field_fits name field_tail hname] at h
  exact ⟨h, rfl⟩

/-- A second "dup" registered behind the first, at address 4. -/
theorem Safe_task_add_appends_witness :
    Safe_task_add { RUN_cycle_MS := 1, Head := some [motor, dup_first], init_falg := 0 } 4 ""
        "dup" 8 103 203
      = .ok { state := { RUN_cycle_MS := 1
                         Head := some ([motor, dup_first] ++ [new_task 4 "dup" 8 103 203])
                         init_falg := 0 }
              calls := [], value := 4 } ∧
    (new_task 4 "dup" 8 103 203).addr = 4 :=
  Safe_task_add_appends 1 [motor, dup_first] 4 "" "dup" 8 103 203 (by decide) (by decide)

/-- C11 as stated fails: registered with a name of 26 characters and threshold 10,
in a block where the threshold is stored right behind the name field, the entry
does not carry the given name; its name field reads back as the first 20
characters run on into the byte 10 of the threshold. -/
theorem Safe_task_add_long_name_not_kept :
    Safe_task_add { RUN_cycle_MS := 1, Head := some [motor], init_falg := 0 } 2 "\n"
        "abcdefghijklmnopqrstuvwxyz" 10 101 201
      = .ok { state := { RUN_cycle_MS := 1
                         Head := some ([motor] ++
                           [new_task 2 "abcdefghijklmnopqrst\n" 10 101 201])
                         init_falg := 0 }
              calls := [], value := 2 } ∧
    Safe_task_add { RUN_cycle_MS := 1, Head := some [motor], init_falg := 0 } 2 "\n"
        "abcdefghijklmnopqrstuvwxyz" 10 101 201
      ≠ .ok { state := { RUN_cycle_MS := 1
                         Head := some ([motor] ++
                           [new_task 2 "abcdefghijklmnopqrstuvwxyz" 10 101 201])
                         init_falg := 0 }
              calls := [], value := 2 } := by
  decide

/-! ## What one call does to the entries -/

theorem online_at_some (p : Ptr) : ∀ (L : List safe_task_t) (r : List safe_task_t × List Event),
    online_at p L = some r →
    ∃ pre t post, L = pre ++ t :: post ∧ r.1 = pre ++ online_reset t :: post
  | [], r, h => by simp [online_at] at h
  | x :: L, r, h => by
    simp only [online_at] at h
    split at h
    · simp only [Option.some.injEq] at h
      subst h
      exact ⟨[], x, L, rfl, rfl⟩
    · split at h
      · simp at h
      · rename_i r1 hr1
        simp only [Option.some.injEq] at h
        subst h
        obtain ⟨pre, t, post, hdec, hr⟩ := online_at_some p L r1 hr1
        exact ⟨x :: pre, t, post, by rw [hdec]; rfl, by simp [hr]⟩

theorem online_name_loop_shape (name : String) (L : List safe_task_t) :
    (online_name_loop name L).1 = L ∨
      ∃ pre t post, L = pre ++ t :: post ∧
        (online_name_loop name L).1 = pre ++ online_reset t :: post := by
  by_cases h : ∃ t ∈ L, t.name = name
  · obtain ⟨pre, t, post, hdec, _, _, hloop⟩ := online_name_loop_found name L h
    exact Or.inr ⟨pre, t, post, hdec, by rw [hloop]⟩
  · left
    rw [online_name_loop_not_found name L (fun t ht hn => h ⟨t, ht, hn⟩)]

theorem delect_ptr_loop_mem (p : Ptr) : ∀ (temp : safe_task_t) (rest : List safe_task_t)
    (u : safe_task_t), u ∈ (delect_ptr_loop p temp rest).1 → u ∈ temp :: rest
  | temp, [], u, h => by simpa [delect_ptr_loop] using h
  | temp, x :: rest, u, h => by
    simp only [delect_ptr_loop] at h
    split at h
    · simp only [List.mem_cons] at h ⊢
      tauto
    · simp only [List.mem_cons] at h ⊢
      rcases h with h | h
      · exact Or.inl h
      · have := delect_ptr_loop_mem p x rest u h
        simp only [List.mem_cons] at this
        exact Or.inr this

theorem delect_name_loop_mem (name : String) : ∀ (temp : safe_task_t)
    (rest : List safe_task_t) (u : safe_task_t),
    u ∈ (delect_name_loop name temp rest).1 → u ∈ temp :: rest
  | temp, [], u, h => by simpa [delect_name_loop] using h
  | temp, x :: rest, u, h => by
    simp only [delect_name_loop] at h
    split at h
    · simp only [List.mem_cons] at h ⊢
      tauto
    · simp only [List.mem_cons] at h ⊢
      rcases h with h | h
      · exact Or.inl h
      · have := delect_name_loop_mem name x rest u h
        simp only [List.mem_cons] at this
        exact Or.inr this

/-- One call on an initialised registry leaves the tick interval and the one-shot
flag alone, and every entry of the registry it leaves is an entry it found, as
it was or refreshed or, after a pass, ticked, or is the entry the call has
registered. -/
theorem step_spec (c : Nat) (L : List safe_task_t) (op : Op) (s1 : State)
    (h : step { RUN_cycle_MS := c, Head := some L, init_falg := 0 } op = .ok s1) :
    ∃ L1, s1 = { RUN_cycle_MS := c, Head := some L1, init_falg := 0 } ∧
      ∀ u ∈ L1,
        u ∈ L ∨ (∃ t ∈ L, u = online_reset t) ∨
        (op = .pass ∧ ∃ t ∈ L, u = tick_entry_spec c t) ∨
        (∃ p tail n T d o, op = .add p tail n T d o ∧
          u = new_task p (strcpy_field n tail) T d o) := by
  cases op with
  | init c1 =>
    simp only [step, Safe_Init_done, Outcome.ok.injEq] at h
    exact ⟨L, h.symm, fun u hu => Or.inl hu⟩
  | start =>
    simp only [step, Safe_Task_entry, Safe_Init_done, Outcome.ok.injEq] at h
    exact ⟨L, h.symm, fun u hu => Or.inl hu⟩
  | add p tail n T d o =>
    by_cases hp : p = NULL
    · subst hp
      simp [step, Safe_task_add_null, Outcome.after] at h
    · simp only [step, Safe_task_add_ok c L p tail n T d o hp, Outcome.after,
        Outcome.ok.injEq] at h
      refine ⟨_, h.symm, fun u hu => ?_⟩
      rcases List.mem_append.mp hu with hu | hu
      · exact Or.inl hu
      · exact Or.inr (Or.inr (Or.inr ⟨p, tail, n, T, d, o, rfl, List.mem_singleton.mp hu⟩))
  | pass =>
    simp only [step, Safe_Task_pass_ok, Outcome.after, Outcome.ok.injEq] at h
    refine ⟨_, h.symm, fun u hu => ?_⟩
    obtain ⟨t, ht, rfl⟩ := List.mem_map.mp hu
    exact Or.inr (Or.inr (Or.inl ⟨rfl, t, ht, rfl⟩))
  | online_ptr p =>
    simp only [step, Safe_Task_online_ptr_] at h
    split at h
    · simp only [Outcome.after, Outcome.ok.injEq] at h
      exact ⟨L, h.symm, fun u hu => Or.inl hu⟩
    · split at h
      · simp [Outcome.after] at h
      · rename_i r hr
        simp only [Outcome.after, Outcome.ok.injEq] at h
        obtain ⟨pre, t, post, hdec, hr1⟩ := online_at_some p L r hr
        refine ⟨_, h.symm, fun u hu => ?_⟩
        rw [hr1] at hu
        subst hdec
        simp only [List.mem_append, List.mem_cons] at hu ⊢
        rcases hu with hu | rfl | hu
        · exact Or.inl (Or.inl hu)
        · exact Or.inr (Or.inl ⟨t, Or.inr (Or.inl rfl), rfl⟩)
        · exact Or.inl (Or.inr (Or.inr hu))
  | online_name name =>
    simp only [step, Safe_Task_online_name_, Outcome.after, Outcome.ok.injEq] at h
    refine ⟨_, h.symm, fun u hu => ?_⟩
    rcases online_name_loop_shape name L with hs | ⟨pre, t, post, hdec, hs⟩
    · rw [hs] at hu
      exact Or.inl hu
    · rw [hs] at hu
      subst hdec
      simp only [List.mem_append, List.mem_cons] at hu ⊢
      rcases hu with hu | rfl | hu
      · exact Or.inl (Or.inl hu)
      · exact Or.inr (Or.inl ⟨t, Or.inr (Or.inl rfl), rfl⟩)
      · exact Or.inl (Or.inr (Or.inr hu))
  | delect_ptr p =>
    cases L with
    | nil =>
      simp only [step, Safe_task_delect_ptr_] at h
      split at h
      · simp only [Outcome.after, Outcome.ok.injEq] at h
        exact ⟨[], h.symm, fun u hu => Or.inl hu⟩
      · simp [Outcome.after] at h
    | cons x L =>
      simp only [step, Safe_task_delect_ptr_] at h
      split at h
      · simp only [Outcome.after, Outcome.ok.injEq] at h
        exact ⟨[], h.symm, fun u hu => by cases hu⟩
      · simp only [Outcome.after, Outcome.ok.injEq] at h
        exact ⟨_, h.symm, fun u hu => Or.inl (delect_ptr_loop_mem p x L u hu)⟩
  | delect_name name =>
    cases L with
    | nil => simp [step, Safe_Task_delect_name_, Outcome.after] at h
    | cons x L =>
      simp only [step, Safe_Task_delect_name_] at h
      split at h
      · simp [Outcome.after] at h
      · simp only [Outcome.after, Outcome.ok.injEq] at h
        exact ⟨_, h.symm, fun u hu => Or.inl (delect_name_loop_mem name x L u hu)⟩

/-- A run from an initialised registry: the tick interval and the one-shot flag stay,
and a property of entries that registration establishes and that refresh and
tick keep holds of every entry at the end if it held of every entry at the
start. -/
theorem run_spec (c : Nat) (P : safe_task_t → Prop)
    (hnew : ∀ p n T d o, P (new_task p n T d o))
    (hreset : ∀ t, P t → P (online_reset t))
    (htick : ∀ t, P t → P (tick_entry_spec c t)) :
    ∀ (ops : List Op) (L : List safe_task_t) (s : State),
      (∀ t ∈ L, P t) →
      run { RUN_cycle_MS := c, Head := some L, init_falg := 0 } ops = .ok s →
      ∃ L1, s = { RUN_cycle_MS := c, Head := some L1, init_falg := 0 } ∧ ∀ t ∈ L1, P t
  | [], L, s, hL, h => by
    simp only [run, Outcome.ok.injEq] at h
    exact ⟨L, h.symm, hL⟩
  | op :: ops, L, s, hL, h => by
    simp only [run] at h
    split at h
    · rename_i s1 hs1
      obtain ⟨L1, rfl, hL1⟩ := step_spec c L op s1 hs1
      refine run_spec c P hnew hreset htick ops L1 s (fun u hu => ?_) h
      rcases hL1 u hu with hu | ⟨t, ht, rfl⟩ | ⟨_, t, ht, rfl⟩ | ⟨p, tail, n, T, d, o, _, rfl⟩
      · exact hL u hu
      · exact hreset t (hL t ht)
      · exact htick t (hL t ht)
      · exact hnew p (strcpy_field n tail) T d o
    · simp at h

/-! ## Initialisation -/

theorem Safe_Init_initial (c : Nat) :
    Safe_Init State.initial c = { RUN_cycle_MS := c, Head := some [], init_falg := 0 } := by
  simp [Safe_Init, State.initial, UINT8_MOD]

/-- C12. The first `Safe_Init` stores its argument in `RUN_cycle_MS` and creates the
empty registry.  In every state `s` that calls of the module then lead to, a
further `Safe_Init`, with any argument, changes nothing, and neither does the one
at the start of `Safe_Task`; the tick interval is still the first argument; and
`Safe_task_add`, which calls `Safe_Init` itself, only appends its entry.  When
`Safe_task_add` is the very first call, the interval becomes `TASK_INTERVAL_MS`,
which is 1. -/
theorem Safe_Init_one_shot (c : Nat) (ops : List Op) (s : State)
    (h : run (Safe_Init State.initial c) ops = .ok s) :
    Safe_Init State.initial c = { RUN_cycle_MS := c, Head := some [], init_falg := 0 } ∧
    (∀ c1, Safe_Init s c1 = s) ∧
    Safe_Task_entry s = s ∧
    s.RUN_cycle_MS = c ∧
    (∀ p tail name T d o, p ≠ NULL →
      Safe_task_add s p tail name T d o
        = .ok { state := { s with Head := some (s.entries ++
                                      [new_task p (strcpy_field name tail) T d o]) }
                calls := [], value := p }) ∧
    (∀ p tail name T d o, p ≠ NULL →
      Safe_task_add State.initial p tail name T d o
        = .ok { state := { RUN_cycle_MS := 1
                           Head := some [new_task p (strcpy_field name tail) T d o]
                           init_falg := 0 }
                calls := [], value := p }) := by
  rw [Safe_Init_initial] at h
  obtain ⟨L1, rfl, _⟩ := run_spec c (fun _ => True) (fun _ _ _ _ _ => trivial)
    (fun _ _ => trivial) (fun _ _ => trivial) ops [] s (fun _ _ => trivial) h
  refine ⟨Safe_Init_initial c, fun c1 => Safe_Init_done c _ c1, Safe_Init_done c _ _, rfl,
    fun p tail name T d o hp => Safe_task_add_ok c L1 p tail name T d o hp,
    fun p tail name T d o hp => ?_⟩
  simp [Safe_task_add, State.initial, Safe_Init, hp, UINT8_MOD, TASK_INTERVAL_MS, new_task]

/-- After `Safe_Init(5)` and the registration of `motor`, `Safe_Init(9)` changes
nothing. -/
theorem Safe_Init_one_shot_witness :
    run (Safe_Init State.initial 5) [Op.add 1 "" "motor" 10 100 200, Op.init 9]
        = .ok { RUN_cycle_MS := 5, Head := some [motor], init_falg := 0 } ∧
    Safe_Init { RUN_cycle_MS := 5, Head := some [motor], init_falg := 0 } 9
        = { RUN_cycle_MS := 5, Head := some [motor], init_falg := 0 } :=
  ⟨by decide,
   (Safe_Init_one_shot 5 [Op.add 1 "" "motor" 10 100 200, Op.init 9]
      { RUN_cycle_MS := 5, Head := some [motor], init_falg := 0 } (by decide)).2.1 9⟩

/-! ## Invariants of the reachable states -/

/-- C14. In every state that calls of the module (registration, refresh by handle
or by name, removal by handle or by name, tick passes, further `Safe_Init`) lead to
from the initialised empty registry, every entry whose `fired` flag is set has
its `disconnected` flag set. -/
theorem fired_only_if_disconnected (c : Nat) (ops : List Op) (s : State)
    (h : run (Safe_Init State.initial c) ops = .ok s) :
    ∀ t ∈ s.entries, t.First_Disconnect ≠ 0 → t.Disconnection_falg ≠ 0 := by
  rw [Safe_Init_initial] at h
  obtain ⟨L1, rfl, hL1⟩ := run_spec c
    (fun t => t.First_Disconnect ≠ 0 → t.Disconnection_falg ≠ 0)
    (fun _ _ _ _ _ => by simp [new_task])
    (fun _ _ => by simp [online_reset])
    (fun t ht => by
      simp only [tick_entry_spec]
      split
      · simp
      · exact ht)
    ops [] s (fun _ ht => by cases ht) h
  exact hL1

/-- Scenario A after its three passes: `motor` has fired and is disconnected. -/
theorem fired_only_if_disconnected_witness :
    run (Safe_Init State.initial 4) [Op.add 1 "" "motor" 10 100 200, Op.pass, Op.pass, Op.pass]
        = .ok scenario_A_end ∧
    motor_fired ∈ scenario_A_end.entries ∧
    motor_fired.First_Disconnect ≠ 0 ∧
    motor_fired.Disconnection_falg ≠ 0 :=
  ⟨by decide, by decide, by decide,
   fired_only_if_disconnected 4 [Op.add 1 "" "motor" 10 100 200, Op.pass, Op.pass, Op.pass]
     scenario_A_end (by decide) motor_fired (by decide) (by decide)⟩

/-! ## Threshold zero -/

/-- C15. An entry with threshold 0 that is fresh (just registered or just
refreshed): the next pass, whatever the tick interval, 0 included, calls its
`on_disconnect` once and leaves its `disconnected` and `fired` flags set. -/
theorem zero_threshold_fires (c flag : Nat) (L : List safe_task_t) (t : safe_task_t)
    (hL : distinct_nodes L) (ht : t ∈ L) (hf : fresh t) (h0 : t.Disconnection_threshold = 0) :
    ∃ r, Safe_Task_pass { RUN_cycle_MS := c, Head := some L, init_falg := flag } = .ok r ∧
      r.calls.count (disconnect_call t) = 1 ∧
      ∃ u ∈ r.state.entries,
        u.addr = t.addr ∧ u.Disconnection_falg = 1 ∧ u.First_Disconnect = 1 := by
  refine ⟨_, Safe_Task_pass_ok c L flag, ?_, tick_entry_spec c t, List.mem_map_of_mem _ ht, ?_⟩
  · show (L.filterMap (tick_call_spec c)).count (disconnect_call t) = 1
    rw [count_calls c L hL.1 t ht, if_pos]
    exact ⟨by rw [h0]; exact Nat.zero_le _, hf.2.2⟩
  · simp [tick_entry_spec, h0, hf.2.2]

/-- An entry with threshold 0 behind `motor`, ticked with interval 0. -/
theorem zero_threshold_fires_witness :
    ∃ r, Safe_Task_pass
        { RUN_cycle_MS := 0, Head := some [motor, new_task 2 "zero" 0 101 201], init_falg := 0 }
        = .ok r ∧
      r.calls.count (disconnect_call (new_task 2 "zero" 0 101 201)) = 1 ∧
      ∃ u ∈ r.state.entries,
        u.addr = (new_task 2 "zero" 0 101 201).addr ∧ u.Disconnection_falg = 1 ∧
          u.First_Disconnect = 1 :=
  zero_threshold_fires 0 0 [motor, new_task 2 "zero" 0 101 201] (new_task 2 "zero" 0 101 201)
    (by decide) (by simp) (by decide) rfl

/-! ## Registration and removal together -/

/-- C18, at a name of 26 characters: `Safe_task_add` neither refuses it nor cuts it
to fit; `strcpy` copies all of it, with the closing NUL 27 bytes for a field of
20, so that the field holds the first 20 characters with no NUL and reads on
into whatever the bytes behind it spell. -/
theorem Safe_task_add_long_name :
    (∀ field_tail : String,
      Safe_task_add State.initial 1 field_tail "abcdefghijklmnopqrstuvwxyz" 10 100 200
        = .ok { state := { RUN_cycle_MS := 1
                           Head := some [new_task 1 ("abcdefghijklmnopqrst" ++ field_tail)
                                           10 100 200]
                           init_falg := 0 }
                calls := [], value := 1 }) ∧
    "abcdefghijklmnopqrstuvwxyz".length + 1 = 27 ∧
    NAME_FIELD_BYTES = 20 := by
  refine ⟨fun field_tail => ?_, by decide, rfl⟩
  rfl

/-- C20, as amended.  On a registry whose head is `t`, whatever entries `rest`
follow it: `Safe_task_delect_ptr_` called with the handle of `t` returns 1 and
leaves `Head->first_task` null, a registry with no entries. -/
theorem head_removal_empties (c flag : Nat) (t : safe_task_t) (rest : List safe_task_t) :
    Safe_task_delect_ptr_ { RUN_cycle_MS := c, Head := some (t :: rest), init_falg := flag }
        t.addr
      = .ok { state := { RUN_cycle_MS := c, Head := some [], init_falg := flag }
              calls := [], value := 1 } := by
  simp [Safe_task_delect_ptr_]

/-- C20 as stated fails: on the registry whose only entry is `motor`,
`Safe_Task_delect_name_` called with the name of `motor` does not return 1 with
the registry empty; after the store of `NULL` it hands `free` the pointer
`delect_task_ptr`, which the branch of the head never assigns. -/
theorem delect_name_head_frees_unassigned :
    Safe_Task_delect_name_ { RUN_cycle_MS := 1, Head := some [motor], init_falg := 0 }
        motor.name
      = .fault .wildPtr ∧
    Safe_Task_delect_name_ { RUN_cycle_MS := 1, Head := some [motor], init_falg := 0 }
        motor.name
      ≠ .ok { state := { RUN_cycle_MS := 1, Head := some [], init_falg := 0 }
              calls := [], value := 1 } := by
  decide

/-! ## What tick and refresh leave alone -/

theorem frame_online_reset (t : safe_task_t) : frame (online_reset t) = frame t := rfl

theorem frame_tick_entry_spec (c : Nat) (t : safe_task_t) :
    frame (tick_entry_spec c t) = frame t := by
  simp only [tick_entry_spec]; split <;> rfl

theorem online_at_of_mem (p : Ptr) : ∀ (L : List safe_task_t),
    (∃ t ∈ L, t.addr = p) → ∃ r, online_at p L = some r
  | [], h => by simp at h
  | x :: L, h => by
    by_cases hx : x.addr = p
    · exact ⟨(online_reset x :: L, [Event.OnlineCallBack x.addr x.OnlineCallBack]),
        by simp [online_at, hx]⟩
    · have h1 : ∃ t ∈ L, t.addr = p := by
        obtain ⟨t, ht, hp⟩ := h
        rcases List.mem_cons.mp ht with rfl | ht1
        · exact absurd hp hx
        · exact ⟨t, ht1, hp⟩
      obtain ⟨r, hr⟩ := online_at_of_mem p L h1
      exact ⟨(x :: r.1, r.2), by simp [online_at, hx, hr]⟩

/-- C16. On a registry with entries `L`: a tick pass, `Safe_Task_online_name_` with
any name, and `Safe_Task_online_ptr_` with the null handle or the handle of an
entry, each return and leave as many entries, in the same order, each with its
address, name, threshold and callbacks as before.  And whatever the call, every
entry of the registry it leaves is the one the call registered or has the
address, name, threshold and callbacks of an entry that was there before the
call: a threshold does not change while its entry is registered. -/
theorem tick_and_refresh_keep_frames (c flag : Nat) (L : List safe_task_t) :
    (∃ r, Safe_Task_pass { RUN_cycle_MS := c, Head := some L, init_falg := flag } = .ok r ∧
      r.state.entries.map frame = L.map frame) ∧
    (∀ name, ∃ r,
      Safe_Task_online_name_ { RUN_cycle_MS := c, Head := some L, init_falg := flag } name
        = .ok r ∧ r.state.entries.map frame = L.map frame) ∧
    (∀ p, (p = NULL ∨ ∃ t ∈ L, t.addr = p) → ∃ r,
      Safe_Task_online_ptr_ { RUN_cycle_MS := c, Head := some L, init_falg := flag } p
        = .ok r ∧ r.state.entries.map frame = L.map frame) ∧
    (∀ op s1, step { RUN_cycle_MS := c, Head := some L, init_falg := 0 } op = .ok s1 →
      ∀ u ∈ s1.entries,
        (∃ t ∈ L, frame t = frame u) ∨
        (∃ p tail n T d o, op = .add p tail n T d o ∧
          u = new_task p (strcpy_field n tail) T d o)) := by
  refine ⟨⟨_, Safe_Task_pass_ok c L flag, ?_⟩, fun name => ⟨_, rfl, ?_⟩, fun p hp => ?_,
    fun op s1 h u hu => ?_⟩
  · show (L.map (tick_entry_spec c)).map frame = L.map frame
    rw [List.map_map]
    exact List.map_congr_left (fun t _ => frame_tick_entry_spec c t)
  · show (online_name_loop name L).1.map frame = L.map frame
    rcases online_name_loop_shape name L with hs | ⟨pre, t, post, hdec, hs⟩
    · rw [hs]
    · rw [hs, hdec]
      simp [frame_online_reset]
  · by_cases hnull : p = NULL
    · exact ⟨{ state := { RUN_cycle_MS := c, Head := some L, init_falg := flag }
               calls := [], value := 0 },
        by simp [Safe_Task_online_ptr_, hnull], rfl⟩
    · have hmem : ∃ t ∈ L, t.addr = p := hp.resolve_left hnull
      obtain ⟨r, hr⟩ := online_at_of_mem p L hmem
      obtain ⟨pre, t, post, hdec, hr1⟩ := online_at_some p L r hr
      refine ⟨{ state := { RUN_cycle_MS := c, Head := some r.1, init_falg := flag }
                calls := r.2, value := 1 },
        by simp only [Safe_Task_online_ptr_, hnull, if_false, hr], ?_⟩
      show r.1.map frame = L.map frame
      rw [hr1, hdec]
      simp [frame_online_reset]
  · obtain ⟨L1, rfl, hL1⟩ := step_spec c L op s1 h
    rcases hL1 u hu with hu1 | ⟨t, ht, rfl⟩ | ⟨_, t, ht, rfl⟩ | hnew
    · exact Or.inl ⟨u, hu1, rfl⟩
    · exact Or.inl ⟨t, ht, (frame_online_reset t).symm⟩
    · exact Or.inl ⟨t, ht, (frame_tick_entry_spec c t).symm⟩
    · exact Or.inr hnew

/-! ## The age and the 32-bit counter -/

theorem run_append (op : Op) : ∀ (ops : List Op) (s : State),
    run s (ops ++ [op]) =
      match run s ops with
      | .ok s1 => step s1 op
      | .fault f => .fault f
  | [], s => by
    simp only [List.nil_append, run]
    cases step s op <;> rfl
  | o :: ops, s => by
    simp only [List.cons_append, run]
    cases step s o with
    | ok s1 => exact run_append op ops s1
    | fault f => rfl

theorem run_fits_append_pass : ∀ (ops : List Op) (s : State),
    run_fits s (ops ++ [Op.pass]) = true →
      run_fits s ops = true ∧ ∀ s1, run s ops = .ok s1 → tick_fits s1 = true
  | [], s, h => by
    simp only [List.nil_append, run_fits, Bool.and_eq_true] at h
    refine ⟨rfl, fun s1 hs1 => ?_⟩
    simp only [run, Outcome.ok.injEq] at hs1
    subst hs1
    exact h.1
  | o :: ops, s, h => by
    simp only [List.cons_append, run_fits, Bool.and_eq_true] at h
    simp only [run_fits, Bool.and_eq_true, run]
    cases hstep : step s o with
    | ok s2 =>
      rw [hstep] at h
      obtain ⟨h1, h2⟩ := run_fits_append_pass ops s2 h.2
      exact ⟨⟨h.1, h1⟩, h2⟩
    | fault f =>
      exact ⟨⟨h.1, rfl⟩, fun s1 hs1 => by simp at hs1⟩

theorem tick_fits_iff (c flag : Nat) (L : List safe_task_t) :
    tick_fits { RUN_cycle_MS := c, Head := some L, init_falg := flag } = true ↔
      ∀ t ∈ L, t.Disconnection_count + c < UINT32_MOD := by
  simp [tick_fits, State.entries, List.all_eq_true]

theorem aged_if_flagged_tick (c : Nat) (t : safe_task_t) (hq : aged_if_flagged t)
    (hfit : t.Disconnection_count + c < UINT32_MOD) :
    aged_if_flagged (tick_entry_spec c t) ∧
      ((tick_entry_spec c t).Disconnection_falg ≠ 0 ↔
        (tick_entry_spec c t).Disconnection_threshold
          ≤ (tick_entry_spec c t).Disconnection_count) := by
  obtain ⟨h1, h2⟩ := hq
  simp only [tick_entry_spec, uint32_add, Nat.mod_eq_of_lt hfit, aged_if_flagged]
  split
  · rename_i hc
    simp only [ne_eq, one_ne_zero, not_false_eq_true, forall_const, true_iff, true_and]
    exact ⟨hc.1, hc.1⟩
  · rename_i hc
    refine ⟨⟨h1, fun hf => Nat.le_trans (h2 hf) (Nat.le_add_right _ _)⟩,
      fun hf => Nat.le_trans (h2 hf) (Nat.le_add_right _ _), fun hle => ?_⟩
    by_cases hfirst : t.First_Disconnect = 0
    · exact absurd ⟨hle, hfirst⟩ hc
    · exact h1 hfirst

/-- A run in which no pass wraps a counter keeps `aged_if_flagged`. -/
theorem run_fits_spec (c : Nat) : ∀ (ops : List Op) (L : List safe_task_t) (s : State),
    (∀ t ∈ L, aged_if_flagged t) →
    run { RUN_cycle_MS := c, Head := some L, init_falg := 0 } ops = .ok s →
    run_fits { RUN_cycle_MS := c, Head := some L, init_falg := 0 } ops = true →
    ∃ L1, s = { RUN_cycle_MS := c, Head := some L1, init_falg := 0 } ∧
      ∀ t ∈ L1, aged_if_flagged t
  | [], L, s, hL, h, _ => by
    simp only [run, Outcome.ok.injEq] at h
    exact ⟨L, h.symm, hL⟩
  | op :: ops, L, s, hL, h, hfit => by
    simp only [run] at h
    simp only [run_fits, Bool.and_eq_true] at hfit
    cases hstep : step { RUN_cycle_MS := c, Head := some L, init_falg := 0 } op with
    | fault f => simp [hstep] at h
    | ok s1 =>
      rw [hstep] at h hfit
      obtain ⟨L1, rfl, hL1⟩ := step_spec c L op s1 hstep
      refine run_fits_spec c ops L1 s (fun u hu => ?_) h hfit.2
      rcases hL1 u hu with hu | ⟨t, ht, rfl⟩ | ⟨hop, t, ht, rfl⟩ | ⟨p, tail, n, T, d, o, _, rfl⟩
      · exact hL u hu
      · simp [aged_if_flagged, online_reset]
      · subst hop
        exact (aged_if_flagged_tick c t (hL t ht) ((tick_fits_iff c 0 L).mp hfit.1 t ht)).1
      · simp [aged_if_flagged, new_task]

/-- C13, as amended.  In every state that calls of the module lead to from the
initialised empty registry, when the last call is a tick pass and no pass of the
sequence, the last included, has taken an entry's age beyond what the 32-bit
counter holds: every entry has `disconnected` set exactly when its age is at or
above its threshold. -/
theorem disconnected_iff_aged (c : Nat) (ops : List Op) (s : State)
    (h : run (Safe_Init State.initial c) (ops ++ [Op.pass]) = .ok s)
    (hfit : run_fits (Safe_Init State.initial c) (ops ++ [Op.pass]) = true) :
    ∀ t ∈ s.entries,
      (t.Disconnection_falg ≠ 0 ↔ t.Disconnection_threshold ≤ t.Disconnection_count) := by
  rw [Safe_Init_initial] at h hfit
  rw [run_append] at h
  obtain ⟨hfit1, hlast⟩ := run_fits_append_pass ops _ hfit
  cases hrun : run { RUN_cycle_MS := c, Head := some [], init_falg := 0 } ops with
  | fault f => simp [hrun] at h
  | ok s1 =>
    rw [hrun] at h
    obtain ⟨L1, rfl, hL1⟩ := run_fits_spec c ops [] s1 (fun _ ht => by cases ht) hrun hfit1
    have hfits := (tick_fits_iff c 0 L1).mp (hlast _ hrun)
    simp only [step, Safe_Task_pass_ok, Outcome.after, Outcome.ok.injEq] at h
    subst h
    intro u hu
    obtain ⟨t, ht, rfl⟩ := List.mem_map.mp hu
    exact (aged_if_flagged_tick c t (hL1 t ht) (hfits t ht)).2

/-- Scenario A: `motor` registered and ticked three times at interval 4. -/
theorem disconnected_iff_aged_witness :
    run (Safe_Init State.initial 4)
        ([Op.add 1 "" "motor" 10 100 200, Op.pass, Op.pass] ++ [Op.pass])
      = .ok scenario_A_end ∧
    run_fits (Safe_Init State.initial 4)
        ([Op.add 1 "" "motor" 10 100 200, Op.pass, Op.pass] ++ [Op.pass]) = true ∧
    motor_fired ∈ scenario_A_end.entries ∧
    (motor_fired.Disconnection_falg ≠ 0 ↔
      motor_fired.Disconnection_threshold ≤ motor_fired.Disconnection_count) :=
  ⟨by decide, by decide, by decide,
   disconnected_iff_aged 4 [Op.add 1 "" "motor" 10 100 200, Op.pass, Op.pass] scenario_A_end
     (by decide) (by decide) motor_fired (by decide)⟩

/-- C13 as stated fails: after `Safe_Init(2147483648)`, the registration of `motor`
(threshold 10) and two passes, the sequence ends with a pass and `motor` has
`disconnected` set with age 0, below its threshold. -/
theorem disconnected_after_wrap :
    run (Safe_Init State.initial 2147483648)
        [Op.add 1 "" "motor" 10 100 200, Op.pass, Op.pass]
      = .ok { RUN_cycle_MS := 2147483648, Head := some [motor_wrapped], init_falg := 0 } ∧
    motor_wrapped.Disconnection_falg = 1 ∧
    motor_wrapped.Disconnection_count = 0 ∧
    motor_wrapped.Disconnection_threshold = 10 ∧
    ¬ (motor_wrapped.Disconnection_falg ≠ 0 ↔
        motor_wrapped.Disconnection_threshold ≤ motor_wrapped.Disconnection_count) := by
  decide

/-- C17, as amended.  A tick pass returns and ticks every entry in place; an entry
whose age plus `RUN_cycle_MS` is within the 32-bit counter has that sum as its
new age, which is at least the old one.  A refresh sets the age to 0, and any
call other than a pass leaves every entry it keeps as it was, or refreshed, or
is the entry it has registered. -/
theorem age_monotone_unless_wrap (c flag : Nat) (L : List safe_task_t) :
    (∃ r, Safe_Task_pass { RUN_cycle_MS := c, Head := some L, init_falg := flag } = .ok r ∧
      r.state.entries = L.map (tick_entry_spec c)) ∧
    (∀ t ∈ L, t.Disconnection_count + c < UINT32_MOD →
      (tick_entry_spec c t).Disconnection_count = t.Disconnection_count + c ∧
      t.Disconnection_count ≤ (tick_entry_spec c t).Disconnection_count) ∧
    (∀ t : safe_task_t, (online_reset t).Disconnection_count = 0) ∧
    (∀ op s1, op ≠ Op.pass →
      step { RUN_cycle_MS := c, Head := some L, init_falg := 0 } op = .ok s1 →
      ∀ u ∈ s1.entries,
        u ∈ L ∨ (∃ t ∈ L, u = online_reset t) ∨
        (∃ p tail n T d o, op = .add p tail n T d o ∧
          u = new_task p (strcpy_field n tail) T d o)) := by
  refine ⟨⟨_, Safe_Task_pass_ok c L flag, rfl⟩, fun t _ hfit => ?_, fun _ => rfl,
    fun op s1 hop h u hu => ?_⟩
  · rw [tick_entry_spec_count, uint32_add, Nat.mod_eq_of_lt hfit]
    exact ⟨rfl, Nat.le_add_right _ _⟩
  · obtain ⟨L1, rfl, hL1⟩ := step_spec c L op s1 h
    rcases hL1 u hu with hu1 | hre | ⟨hp, _⟩ | hnew
    · exact Or.inl hu1
    · exact Or.inr (Or.inl hre)
    · exact absurd hp hop
    · exact Or.inr (Or.inr hnew)

/-- C17 as stated fails: after `Safe_Init(2147483648)`, the registration of `motor`
and one pass, the age of `motor` is 2147483648, and the next pass takes it to 0. -/
theorem age_decreases_at_wrap :
    run (Safe_Init State.initial 2147483648) [Op.add 1 "" "motor" 10 100 200, Op.pass]
      = .ok { RUN_cycle_MS := 2147483648, Head := some [motor_aged], init_falg := 0 } ∧
    Safe_Task_pass { RUN_cycle_MS := 2147483648, Head := some [motor_aged], init_falg := 0 }
      = .ok { state := { RUN_cycle_MS := 2147483648, Head := some [motor_wrapped]
                         init_falg := 0 }
              calls := [], value := () } ∧
    motor_aged.Disconnection_count = 2147483648 ∧
    motor_wrapped.Disconnection_count = 0 ∧
    ¬ (motor_aged.Disconnection_count ≤ motor_wrapped.Disconnection_count) := by
  decide

end SafeTask
